import Mathlib

/-!
Verification development for the autovis pipeline (analyzer.py / translator.py).

This file gives a shallow embedding, in Lean 4, of the two components the
claims concern:

* `EnhancedAnalyzer` (src/analyzer.py): an `ast.NodeVisitor` that classifies
  variables into 1-D / 2-D / other structure sets, tracks subscript depth,
  and produces a summary dictionary via `summarize`.
* `InstrumentedTranslator` (src/translator.py, the live code starting at the
  second module header): a Python→JavaScript translator that injects
  Algorithm Visualizer tracer instrumentation, plus the free function
  `_collect_param_bindings`.

Modelling conventions:

* The Python AST fragment the components consume is embedded as the
  inductives `PExpr` / `PStmt` below.  Constructs the claims never exercise
  (string constants, float constants, `ListComp` / `GeneratorExp` /
  `Set` / `Dict` literals, keyword arguments, class definitions) are left
  out of the universe; branches of the source that can only fire on those
  constructs are therefore dead and are noted where they occur.
* Python `set` objects are modelled as duplicate-free `List String` in
  insertion order.  Python's set iteration order is unspecified; where the
  source iterates a set (e.g. `for base in self.traceable_1d`), the model
  iterates the list, fixing one admissible order.
* Python `dict` / `defaultdict` objects are modelled as association lists
  in insertion order, with the defaultdict read-default where the source
  relies on it.
* Source line numbers (`lineno`) are not modelled; recorded "points" keep
  their variable/depth payload only.
* The uninitialized attribute `has_heap` of `EnhancedAnalyzer` (assigned
  only inside `visit_Call`, never in `__init__`) is modelled as an
  `Option Bool` starting at `none`; reading it goes through `readHasHeap`,
  which raises (returns `Except.error`) on the uninitialized state, the
  way Python's attribute lookup would.
* `ast.walk` is breadth-first in Python; the walks below are depth-first
  pre-order.  Every use feeds either a set (order irrelevant) or a
  first-match search whose result the claims do not depend on.
-/

namespace Av

/-- Python constants the embedded fragment uses (`ast.Constant`). -/
inductive Konst where
  | intC (n : Int)
  | boolC (b : Bool)
  | noneC
deriving Repr, DecidableEq

/-- Comparison operators (`ast.cmpop`). -/
inductive CmpK where
  | eq | ne | lt | le | gt | ge | isK | isNotK | inK | notInK
deriving Repr, DecidableEq

/-- Binary operators (`ast.operator`); `pow` has no translator case and
exercises the fallback. -/
inductive BinK where
  | add | sub | mult | div | mod | floorDiv | pow
deriving Repr, DecidableEq

/-- Boolean operators (`ast.boolop`). -/
inductive BoolK where
  | andK | orK
deriving Repr, DecidableEq

/-- Unary operators (`ast.unaryop`); `uadd` exercises the fallback. -/
inductive UnK where
  | notK | usub | uadd
deriving Repr, DecidableEq

/-- Python expressions (the fragment of `ast.expr` the components consume).
`cmpE` zips `ops` with `comparators`; `sliceE` is `ast.Slice` (legal only as
a subscript's slice); `ifExpE` (`ast.IfExp`) has no handler anywhere and
exercises the `js_expr` fallback. -/
inductive PExpr where
  | constE (c : Konst)
  | nameE (id : String)
  | unaryE (op : UnK) (operand : PExpr)
  | binE (op : BinK) (left right : PExpr)
  | boolE (op : BoolK) (values : List PExpr)
  | cmpE (left : PExpr) (rest : List (CmpK × PExpr))
  | subE (value : PExpr) (slice : PExpr)
  | sliceE (lower upper step : Option PExpr)
  | attrE (value : PExpr) (attrName : String)
  | callE (func : PExpr) (args : List PExpr)
  | listE (elts : List PExpr)
  | tupleE (elts : List PExpr)
  | ifExpE (test body orelse : PExpr)
deriving Repr

/-- Python statements (the fragment of `ast.stmt` the components consume).
`importS` (`ast.Import`) has no visitor in either component and exercises
`generic_visit`. -/
inductive PStmt where
  | assign (targets : List PExpr) (value : PExpr)
  | augAssign (target : PExpr) (op : BinK) (value : PExpr)
  | exprStmt (value : PExpr)
  | forS (target : PExpr) (iter : PExpr) (body : List PStmt)
  | whileS (test : PExpr) (body : List PStmt)
  | ifS (test : PExpr) (body orelse : List PStmt)
  | funcDef (name : String) (args : List String) (body : List PStmt)
  | ret (value : Option PExpr)
  | breakS
  | continueS
  | passS
  | importS (moduleName : String)
deriving Repr

/-! ### Python `set` / `dict` models -/

/-- `set.add`: append if absent (insertion-order model of a Python set). -/
def sadd (s : List String) (x : String) : List String :=
  if x ∈ s then s else s ++ [x]

/-- Set union `a | b` (insertion-order model). -/
def sunion (a b : List String) : List String :=
  b.foldl sadd a

/-- Dedup a list keeping first occurrences (used where the source builds a
Python set from a walk). -/
def dedup : List String → List String
  | [] => []
  | x :: xs => x :: (dedup xs).filter (· ≠ x)

/-- `dict.__setitem__` on an association list (insertion order preserved,
in-place update of an existing key). -/
def assocSet {α : Type} : List (String × α) → String → α → List (String × α)
  | [], k, v => [(k, v)]
  | (k', v') :: rest, k, v =>
      if k' = k then (k, v) :: rest else (k', v') :: assocSet rest k v

/-- `defaultdict(int)` read: missing keys read as `0`. -/
def depthGet (d : List (String × Nat)) (k : String) : Nat :=
  match d.lookup k with
  | some v => v
  | none => 0

/-- `defaultdict` read side effect: reading a missing key inserts the
default.  Only the key set (dict export) can observe this. -/
def depthTouch (d : List (String × Nat)) (k : String) : List (String × Nat) :=
  match d.lookup k with
  | some _ => d
  | none => d ++ [(k, 0)]

/-- `defaultdict(set)` update `d[k].add(v)`. -/
def ddAdd (d : List (String × List String)) (k v : String) :
    List (String × List String) :=
  match d.lookup k with
  | some s => assocSet d k (sadd s v)
  | none => d ++ [(k, sadd [] v)]

/-- Python `x in s` substring test on char lists (prefix at some position). -/
def isPrefixL : List Char → List Char → Bool
  | [], _ => true
  | _ :: _, [] => false
  | a :: as, b :: bs => a == b && isPrefixL as bs

/-- Python `needle in hay` for strings. -/
def strContains (hay needle : String) : Bool :=
  go needle.toList hay.toList
where
  go (n : List Char) : List Char → Bool
    | [] => isPrefixL n []
    | c :: cs => isPrefixL n (c :: cs) || go n cs

/-- Python `c in s` single-character membership test on the char list
(the kernel-reducible model of `'[' in first_expr`). -/
def pyContainsChar (s : String) (c : Char) : Bool :=
  s.toList.any (· == c)

/-- `str.split(sep)` for a one-character separator (splits at every
occurrence, like Python). -/
def splitCharAux (c : Char) : List Char → List Char → List (List Char)
  | [], acc => [acc.reverse]
  | x :: xs, acc =>
      if x == c then acc.reverse :: splitCharAux c xs []
      else splitCharAux c xs (x :: acc)

def pySplitChar (s : String) (c : Char) : List String :=
  (splitCharAux c s.toList []).map String.mk

/-- `str.rstrip(ch)`: drop every trailing occurrence of `ch`. -/
def pyRStrip (s : String) (c : Char) : String :=
  String.mk ((s.toList.reverse.dropWhile (· == c)).reverse)

/-- `str.lower()` (the identifiers involved are ASCII). -/
def pyLower (s : String) : String :=
  String.mk (s.toList.map Char.toLower)

/-- Insertion into a `≤`-sorted string list. -/
def insertSorted (x : String) : List String → List String
  | [] => [x]
  | y :: ys => if x ≤ y then x :: y :: ys else y :: insertSorted x ys

/-- Python `sorted` on a set of strings. -/
def sortStr (l : List String) : List String :=
  l.foldr insertSorted []

/-! ### EnhancedAnalyzer (src/analyzer.py) -/

/-- The analyzer's mutable state, one field per attribute set in
`EnhancedAnalyzer.__init__` — except `has_heap`, which `__init__` does NOT
set (it is first assigned inside `visit_Call`), hence `Option Bool`
starting at `none`. -/
structure AState where
  vars1d : List String := []
  vars2d : List String := []
  varsGraph : List String := []
  varsTree : List String := []
  varsStack : List String := []
  varsQueue : List String := []
  varsHeap : List String := []
  varsSet : List String := []
  varsDict : List String := []
  varsDefaultdict : List String := []
  varsCounter : List String := []
  varSources : List (String × List String) := []
  varDepth : List (String × Nat) := []
  methodCalls : List (String × List String) := []
  comparisonPoints : List (List String) := []
  swapPoints : List (List String) := []
  updatePoints : List (String × Nat) := []
  hasSorting : Bool := false
  hasSearching : Bool := false
  hasGraphTraversal : Bool := false
  hasDp : Bool := false
  hasBacktracking : Bool := false
  hasHeap : Option Bool := none
  currentFunction : Option String := none
  loopDepth : Nat := 0
  inCondition : Bool := false
deriving Repr

/-- The state `EnhancedAnalyzer.__init__` establishes. -/
def initA : AState := {}

/-- Reading `self.has_heap`: raises `AttributeError` while uninitialized. -/
def readHasHeap (s : AState) : Except String Bool :=
  match s.hasHeap with
  | some b => Except.ok b
  | none => Except.error "AttributeError: has_heap"

/-- The subscript-chain loop of `_get_subscript_info`: walk `current.value`
counting depth, breaking once `depth > 10`. -/
def subInfoLoop : PExpr → Nat → PExpr × Nat
  | .subE v _, depth =>
      let d := depth + 1
      if d > 10 then (v, d) else subInfoLoop v d
  | e, depth => (e, depth)
termination_by structural e => e

/-- `EnhancedAnalyzer._get_subscript_info`: base variable name (when the
innermost value is a bare name) and subscript depth. -/
def getSubscriptInfo (e : PExpr) : Option String × Nat :=
  match subInfoLoop e 0 with
  | (.nameE id, d) => (some id, d)
  | (_, d) => (none, d)

mutual

/-- The variable-collecting walk inside `visit_Compare`: every `ast.Name`
contributes its id, every `ast.Subscript` contributes its base (when
resolvable).  The source walks breadth-first into a Python set; the model
walks depth-first and dedups, which fixes one admissible iteration order. -/
def cmpWalkVars : PExpr → List String
  | .constE _ => []
  | .nameE id => [id]
  | .unaryE _ e => cmpWalkVars e
  | .binE _ l r => cmpWalkVars l ++ cmpWalkVars r
  | .boolE _ vs => cmpWalkVarsList vs
  | .cmpE l rest => cmpWalkVars l ++ cmpWalkVarsPairs rest
  | .subE v sl =>
      (match getSubscriptInfo (.subE v sl) with
       | (some b, _) => [b]
       | (none, _) => []) ++ cmpWalkVars v ++ cmpWalkVars sl
  | .sliceE l u st =>
      (match l with | some e => cmpWalkVars e | none => []) ++
        (match u with | some e => cmpWalkVars e | none => []) ++
        (match st with | some e => cmpWalkVars e | none => [])
  | .attrE v _ => cmpWalkVars v
  | .callE f args => cmpWalkVars f ++ cmpWalkVarsList args
  | .listE es => cmpWalkVarsList es
  | .tupleE es => cmpWalkVarsList es
  | .ifExpE t b o => cmpWalkVars t ++ cmpWalkVars b ++ cmpWalkVars o
termination_by structural e => e

/-- Walk helper over expression lists. -/
def cmpWalkVarsList : List PExpr → List String
  | [] => []
  | e :: es => cmpWalkVars e ++ cmpWalkVarsList es
termination_by structural l => l

/-- Walk helper over comparison (op, comparator) pairs. -/
def cmpWalkVarsPairs : List (CmpK × PExpr) → List String
  | [] => []
  | (_, e) :: rest => cmpWalkVars e ++ cmpWalkVarsPairs rest
termination_by structural l => l

end

/-- Is the expression an `ast.List` literal? (used by `_handle_simple_assign`
and the `[x] * n` checks). -/
def isListE : PExpr → Bool
  | .listE _ => true
  | _ => false

/-- `EnhancedAnalyzer._handle_destructuring`: record that the bare-name
targets came from unpacking. -/
def aHandleDestructuring (s : AState) (elts : List PExpr) : AState :=
  let names := elts.filterMap (fun e => match e with | .nameE n => some n | _ => none)
  names.foldl (fun s n => { s with varSources := ddAdd s.varSources n "destructured" }) s

/-- `EnhancedAnalyzer._handle_call_assign`. -/
def aHandleCallAssign (s : AState) (name : String) (f : PExpr) : AState :=
  match f with
  | .nameE fname =>
      if fname = "deque" then
        { s with varsQueue := sadd s.varsQueue name, vars1d := sadd s.vars1d name,
                 varSources := ddAdd s.varSources name "deque_init" }
      else if fname = "defaultdict" then
        { s with varsDefaultdict := sadd s.varsDefaultdict name,
                 varsDict := sadd s.varsDict name,
                 varSources := ddAdd s.varSources name "defaultdict_init" }
      else if fname = "Counter" then
        { s with varsCounter := sadd s.varsCounter name,
                 varsDict := sadd s.varsDict name,
                 varSources := ddAdd s.varSources name "counter_init" }
      else if fname = "set" then
        { s with varsSet := sadd s.varsSet name,
                 varSources := ddAdd s.varSources name "set_init" }
      else if fname = "dict" then
        { s with varsDict := sadd s.varsDict name,
                 varSources := ddAdd s.varSources name "dict_init" }
      else if fname = "list" then
        { s with vars1d := sadd s.vars1d name,
                 varSources := ddAdd s.varSources name "list_init" }
      else if fname = "sorted" ∨ fname = "reversed" ∨ fname = "map" ∨ fname = "filter" then
        { s with vars1d := sadd s.vars1d name,
                 varSources := ddAdd s.varSources name (fname ++ "_result") }
      else s
  | _ => s

/-- `EnhancedAnalyzer._handle_simple_assign`.  The `ast.ListComp` branch of
the source is dead here because the embedded fragment has no comprehension
constructor. -/
def aHandleSimpleAssign (s : AState) (name : String) (value : PExpr) : AState :=
  match value with
  | .listE elts =>
      if !elts.isEmpty && elts.all isListE then
        { s with vars2d := sadd s.vars2d name,
                 varDepth := assocSet s.varDepth name 2,
                 varSources := ddAdd s.varSources name "literal_2d" }
      else
        { s with vars1d := sadd s.vars1d name,
                 varDepth := assocSet s.varDepth name 1,
                 varSources := ddAdd s.varSources name "literal_1d" }
  | .binE .mult l r =>
      if isListE l ∨ isListE r then
        { s with vars1d := sadd s.vars1d name,
                 varDepth := assocSet s.varDepth name 1,
                 varSources := ddAdd s.varSources name "list_mult" }
      else s
  | .callE f _ => aHandleCallAssign s name f
  | .nameE src =>
      if src ∈ s.vars1d then
        { s with vars1d := sadd s.vars1d name,
                 varSources := ddAdd s.varSources name ("copy_of_" ++ src) }
      else if src ∈ s.vars2d then
        { s with vars2d := sadd s.vars2d name,
                 varSources := ddAdd s.varSources name ("copy_of_" ++ src) }
      else s
  | _ => s

/-- `EnhancedAnalyzer._handle_subscript_assign`: record an update point
(variable and depth; the source also records `lineno`, not modelled). -/
def aHandleSubscriptAssign (s : AState) (target : PExpr) : AState :=
  match getSubscriptInfo target with
  | (some base, depth) => { s with updatePoints := s.updatePoints ++ [(base, depth)] }
  | (none, _) => s

mutual

/-- The analyzer's expression dispatch: `visit` on an expression node runs
the matching `visit_X` handler (Subscript, Compare, Attribute, Call) or the
default `generic_visit` child traversal; each handler itself ends in
`generic_visit`, traversing children in AST field order. -/
def avisit (s : AState) : PExpr → AState
  | .constE _ => s
  | .nameE _ => s
  | .unaryE _ e => avisit s e
  | .binE _ l r => avisit (avisit s l) r
  | .boolE _ vs => avisitList s vs
  | .cmpE l rest =>
      -- visit_Compare
      let s := { s with inCondition := true }
      let vars := dedup (cmpWalkVars (.cmpE l rest))
      let s :=
        if vars ≠ [] then { s with comparisonPoints := s.comparisonPoints ++ [vars] }
        else s
      let s := avisit s l
      let s := avisitPairs s rest
      { s with inCondition := false }
  | .subE v sl =>
      -- visit_Subscript
      let info := getSubscriptInfo (.subE v sl)
      let s :=
        match info with
        | (some base, depth) =>
            let s := { s with varDepth := depthTouch s.varDepth base }
            let s :=
              if depth > depthGet s.varDepth base then
                { s with varDepth := assocSet s.varDepth base depth }
              else s
            if depth == 1 then { s with vars1d := sadd s.vars1d base }
            else if depth ≥ 2 then { s with vars2d := sadd s.vars2d base }
            else s
        | (none, _) => s
      avisit (avisit s v) sl
  | .sliceE l u st =>
      let s := match l with | some e => avisit s e | none => s
      let s := match u with | some e => avisit s e | none => s
      match st with | some e => avisit s e | none => s
  | .attrE v attrName =>
      -- visit_Attribute
      let s :=
        match v with
        | .nameE varName =>
            let s := { s with methodCalls := ddAdd s.methodCalls varName attrName }
            if attrName = "append" ∨ attrName = "pop" then
              { s with varsStack := sadd s.varsStack varName,
                       vars1d := sadd s.vars1d varName }
            else if attrName = "popleft" ∨ attrName = "appendleft" then
              { s with varsQueue := sadd s.varsQueue varName,
                       vars1d := sadd s.vars1d varName }
            else if attrName = "left" ∨ attrName = "right" ∨ attrName = "parent" ∨
                attrName = "val" then
              { s with varsTree := sadd s.varsTree varName, hasGraphTraversal := true }
            else if attrName = "add" ∨ attrName = "remove" ∨ attrName = "discard" ∨
                attrName = "union" ∨ attrName = "intersection" then
              { s with varsSet := sadd s.varsSet varName }
            else if attrName = "keys" ∨ attrName = "values" ∨ attrName = "items" ∨
                attrName = "get" then
              { s with varsDict := sadd s.varsDict varName }
            else s
        | _ => s
      avisit s v
  | .callE f args =>
      -- visit_Call
      let s :=
        match f with
        | .nameE fn =>
            if fn = "sort" ∨ fn = "sorted" then { s with hasSorting := true }
            else if fn = "bisect" ∨ fn = "bisect_left" ∨ fn = "bisect_right" then
              { s with hasSearching := true }
            else if fn = "heappush" ∨ fn = "heappop" ∨ fn = "heapify" then
              let s := { s with hasHeap := some true }
              match args with
              | .nameE a :: _ =>
                  { s with varsHeap := sadd s.varsHeap a, vars1d := sadd s.vars1d a }
              | _ => s
            else s
        | .attrE (.nameE "heapq") _ =>
            let s := { s with hasHeap := some true }
            match args with
            | .nameE a :: _ =>
                { s with varsHeap := sadd s.varsHeap a, vars1d := sadd s.vars1d a }
            | _ => s
        | _ => s
      avisitList (avisit s f) args
  | .listE es => avisitList s es
  | .tupleE es => avisitList s es
  | .ifExpE t b o => avisit (avisit (avisit s t) b) o
termination_by structural e => e

/-- Child traversal over expression lists. -/
def avisitList (s : AState) : List PExpr → AState
  | [] => s
  | e :: es => avisitList (avisit s e) es
termination_by structural l => l

/-- Child traversal over comparison pairs (the comparators). -/
def avisitPairs (s : AState) : List (CmpK × PExpr) → AState
  | [] => s
  | (_, e) :: rest => avisitPairs (avisit s e) rest
termination_by structural l => l

end

mutual

/-- The analyzer's statement dispatch: `visit_Assign`, `visit_For`,
`visit_While`, `visit_FunctionDef` handlers, `generic_visit` child
traversal for statement kinds without a handler (`AugAssign`, `Expr`,
`If`, `Return`, `Import`, ...). -/
def avisitStmt (s : AState) : PStmt → AState
  | .assign targets value =>
      -- visit_Assign
      let s :=
        match targets with
        | [] => s
        | target :: _ =>
            match target with
            | .tupleE elts => aHandleDestructuring s elts
            | .listE elts => aHandleDestructuring s elts
            | .nameE n => aHandleSimpleAssign s n value
            | .subE v sl => aHandleSubscriptAssign s (.subE v sl)
            | _ => s
      -- generic_visit: targets, then value
      avisit (avisitList s targets) value
  | .augAssign target _ value => avisit (avisit s target) value
  | .exprStmt value => avisit s value
  | .forS target iter body =>
      -- visit_For
      let s := { s with loopDepth := s.loopDepth + 1 }
      let s :=
        match iter with
        | .callE (.nameE "range") _ => s
        | .callE (.nameE "enumerate") args =>
            match args with
            | .nameE a :: _ => { s with vars1d := sadd s.vars1d a }
            | _ => s
        | .callE _ _ => s
        | .nameE a => { s with vars1d := sadd s.vars1d a }
        | .subE v sl =>
            match getSubscriptInfo (.subE v sl) with
            | (some b, _) => { s with vars2d := sadd s.vars2d b, hasGraphTraversal := true }
            | (none, _) => s
        | _ => s
      let s := avisit s target
      let s := avisit s iter
      let s := avisitStmts s body
      { s with loopDepth := s.loopDepth - 1 }
  | .whileS test body =>
      -- visit_While
      let s := { s with loopDepth := s.loopDepth + 1 }
      let s := avisit s test
      let s := avisitStmts s body
      { s with loopDepth := s.loopDepth - 1 }
  | .ifS test body orelse =>
      let s := avisit s test
      let s := avisitStmts s body
      avisitStmts s orelse
  | .funcDef name _ body =>
      -- visit_FunctionDef
      let prev := s.currentFunction
      let s := { s with currentFunction := some name }
      let nl := pyLower name
      let s :=
        if strContains nl "sort" ∨ strContains nl "bubble" ∨ strContains nl "merge" ∨
            strContains nl "quick" then
          { s with hasSorting := true }
        else if strContains nl "search" ∨ strContains nl "binary" ∨
            strContains nl "find" then
          { s with hasSearching := true }
        else if strContains nl "dfs" ∨ strContains nl "bfs" ∨
            strContains nl "traverse" ∨ strContains nl "graph" then
          { s with hasGraphTraversal := true }
        else if strContains nl "dp" ∨ strContains nl "dynamic" then
          { s with hasDp := true }
        else if strContains nl "backtrack" then
          { s with hasBacktracking := true }
        else s
      let s := avisitStmts s body
      { s with currentFunction := prev }
  | .ret value =>
      match value with
      | some e => avisit s e
      | none => s
  | .breakS => s
  | .continueS => s
  | .passS => s
  | .importS _ => s
termination_by structural st => st

/-- Traversal over a statement list (module or suite body). -/
def avisitStmts (s : AState) : List PStmt → AState
  | [] => s
  | st :: rest => avisitStmts (avisitStmt s st) rest
termination_by structural l => l

end

/-- The summary dictionary `EnhancedAnalyzer.summarize` returns. -/
structure Summary where
  vars1d : List String
  vars2d : List String
  varsGraph : List String
  varsTree : List String
  varsStack : List String
  varsQueue : List String
  varsHeap : List String
  varsSet : List String
  varsDict : List String
  varsDefaultdict : List String
  varsCounter : List String
  hasArray1d : Bool
  hasArray2d : Bool
  hasGraph : Bool
  hasTree : Bool
  hasStack : Bool
  hasQueue : Bool
  hasHeap : Bool
  hasSet : Bool
  hasDict : Bool
  hasSorting : Bool
  hasSearching : Bool
  hasGraphTraversal : Bool
  hasDp : Bool
  hasBacktracking : Bool
  comparisonPoints : List (List String)
  swapPoints : List (List String)
  updatePoints : List (String × Nat)
  vizType : String
  keyVars : List String
  varSources : List (String × List String)
  methodCalls : List (String × List String)
  varDepth : List (String × Nat)
deriving Repr, Inhabited

/-- `EnhancedAnalyzer._determine_viz_type` (runs on the state after the
1-D/2-D overlap removal). -/
def determineVizType (s : AState) : String :=
  if s.hasGraphTraversal ∨ s.varsGraph ≠ [] ∨ s.varsTree ≠ [] then "graph"
  else if s.vars2d ≠ [] then "array2d"
  else if s.hasSorting then "sorting"
  else if s.vars1d ≠ [] then "array1d"
  else if s.varsStack ≠ [] ∨ s.varsQueue ≠ [] then "stack_queue"
  else "basic"

/-- `EnhancedAnalyzer._identify_key_vars`. -/
def identifyKeyVars (s : AState) : List String :=
  let keyVars : List String := []
  let keyVars :=
    if s.vars2d ≠ [] then keyVars ++ (sortStr s.vars2d).take 2 else keyVars
  let keyVars :=
    if s.vars1d ≠ [] ∧ keyVars.length < 3 then
      keyVars ++ (sortStr s.vars1d).take (3 - keyVars.length)
    else keyVars
  let keyVars :=
    if (s.varsStack ≠ [] ∨ s.varsQueue ≠ []) ∧ keyVars.length < 3 then
      keyVars ++ (sortStr (sunion s.varsStack s.varsQueue)).take (3 - keyVars.length)
    else keyVars
  keyVars

/-- `EnhancedAnalyzer.summarize`.  First removes the 1-D/2-D overlap
(`self.vars_1d -= self.vars_2d`), then builds the summary dictionary.
Raising is modelled in `Except`: the only attribute `__init__` leaves
uninitialized is `has_heap`, and the `"has_heap"` entry below reads
`self.vars_heap`, not `self.has_heap`, so no `readHasHeap` call occurs. -/
def summarize (s0 : AState) : Except String Summary := do
  let s := { s0 with vars1d := s0.vars1d.filter (fun x => x ∉ s0.vars2d) }
  let vizType := determineVizType s
  let keyVars := identifyKeyVars s
  return {
    vars1d := sortStr s.vars1d
    vars2d := sortStr s.vars2d
    varsGraph := sortStr s.varsGraph
    varsTree := sortStr s.varsTree
    varsStack := sortStr s.varsStack
    varsQueue := sortStr s.varsQueue
    varsHeap := sortStr s.varsHeap
    varsSet := sortStr s.varsSet
    varsDict := sortStr s.varsDict
    varsDefaultdict := sortStr s.varsDefaultdict
    varsCounter := sortStr s.varsCounter
    hasArray1d := !s.vars1d.isEmpty
    hasArray2d := !s.vars2d.isEmpty
    hasGraph := !s.varsGraph.isEmpty || s.hasGraphTraversal
    hasTree := !s.varsTree.isEmpty
    hasStack := !s.varsStack.isEmpty
    hasQueue := !s.varsQueue.isEmpty
    hasHeap := !s.varsHeap.isEmpty
    hasSet := !s.varsSet.isEmpty
    hasDict := !s.varsDict.isEmpty
    hasSorting := s.hasSorting
    hasSearching := s.hasSearching
    hasGraphTraversal := s.hasGraphTraversal
    hasDp := s.hasDp
    hasBacktracking := s.hasBacktracking
    comparisonPoints := s.comparisonPoints
    swapPoints := s.swapPoints
    updatePoints := s.updatePoints
    vizType := vizType
    keyVars := keyVars
    varSources := s.varSources.map (fun p => (p.1, sortStr p.2))
    methodCalls := s.methodCalls.map (fun p => (p.1, sortStr p.2))
    varDepth := s.varDepth
  }

/-- Run the analyzer's full traversal over a parsed unit. -/
def runAnalyzer (stmts : List PStmt) : AState :=
  avisitStmts initA stmts

/-- `analyze_code` on an already-parsed tree: full traversal, then
`summarize`. -/
def analyzeUnit (stmts : List PStmt) : Except String Summary :=
  summarize (runAnalyzer stmts)

/-! ### Lemmas about the sorted-list model -/

theorem mem_insertSorted (x y : String) (l : List String) :
    x ∈ insertSorted y l ↔ x = y ∨ x ∈ l := by
  induction l with
  | nil => simp [insertSorted]
  | cons z zs ih =>
    unfold insertSorted
    by_cases h : y ≤ z
    · simp [h]
    · simp only [h, if_false, List.mem_cons, ih]
      tauto

theorem mem_sortStr (x : String) (l : List String) : x ∈ sortStr l ↔ x ∈ l := by
  unfold sortStr
  induction l with
  | nil => simp
  | cons y ys ih => simp [List.foldr, mem_insertSorted, ih]

/-! ### Claims about the analyzer -/

/-- C1: for every structurally valid syntax tree, after the analyzer's
finalization step (`summarize`), no variable name appears in both the
returned `vars_1d` list and the returned `vars_2d` list: `summarize`
executes `self.vars_1d -= self.vars_2d` before building the summary, so
any name in the 2-D set is removed from the 1-D set. -/
theorem c1_summarize_no_1d_2d_overlap
    (stmts : List PStmt) (sum : Summary) (x : String)
    (h : analyzeUnit stmts = Except.ok sum)
    (hx : x ∈ sum.vars1d) : x ∉ sum.vars2d := by
  unfold analyzeUnit summarize at h
  simp only [pure, Except.pure, Except.ok.injEq] at h
  subst h
  simp only [mem_sortStr, List.mem_filter, decide_eq_true_eq] at hx ⊢
  intro h2
  exact hx.2 h2

/-- C1 witness program: `a = [1]` followed by `x[0][0] = 1`
(so the raw sets are vars_1d = ["a","x"], vars_2d = ["x"]). -/
def c1Prog : List PStmt :=
  [.assign [.nameE "a"] (.listE [.constE (.intC 1)]),
   .assign [.subE (.subE (.nameE "x") (.constE (.intC 0))) (.constE (.intC 0))]
     (.constE (.intC 1))]

theorem c1_witness :
    "a" ∈ ((analyzeUnit c1Prog).toOption.getD default).vars1d ∧
      "a" ∉ ((analyzeUnit c1Prog).toOption.getD default).vars2d :=
  ⟨by decide,
   c1_summarize_no_1d_2d_overlap c1Prog
     ((analyzeUnit c1Prog).toOption.getD default) "a" rfl (by decide)⟩

/-- Reading `has_heap` before any `visit_Call` assignment would raise: the
attribute is absent from the freshly constructed analyzer. -/
theorem readHasHeap_initA_raises :
    readHasHeap initA = Except.error "AttributeError: has_heap" := rfl

/-- C9: for every structurally valid syntax tree, the analyzer's full
traversal followed by `summarize` completes without raising.  In
particular, the summary is produced even though `has_heap` is assigned
only inside `visit_Call` and never initialized in the constructor:
`summarize` builds its `"has_heap"` entry from `self.vars_heap`, so the
possibly-uninitialized attribute (whose read, `readHasHeap`, would raise)
is never consulted. -/
theorem c9_traversal_and_summarize_total (stmts : List PStmt) :
    ∃ sum : Summary, analyzeUnit stmts = Except.ok sum :=
  ⟨_, rfl⟩

/-- C4 counterexample statements: `x[0][0] = 1` then `x = [1]`.  The first
statement's traversal records subscript depth 2 for `x`; the second is a
simple assignment of a flat list literal, and `_handle_simple_assign`
overwrites `var_depth["x"]` with 1 — a decrease. -/
def c4Stmt1 : PStmt :=
  .assign [.subE (.subE (.nameE "x") (.constE (.intC 0))) (.constE (.intC 0))]
    (.constE (.intC 1))

def c4Stmt2 : PStmt := .assign [.nameE "x"] (.listE [.constE (.intC 1)])

/-- C4 counterexample: during the traversal of `[x[0][0] = 1, x = [1]]`,
`var_depth["x"]` is 2 after the first statement (a depth-2 subscript over
`x` was observed: `getSubscriptInfo` returns depth 2) but 1 after the
second — the recorded depth decreased from one visited node to the next,
and the final value 1 is not the maximum subscript nesting (2) observed
for `x` in the unit. -/
theorem c4_counterexample :
    depthGet (runAnalyzer [c4Stmt1]).varDepth "x" = 2 ∧
      depthGet (runAnalyzer [c4Stmt1, c4Stmt2]).varDepth "x" = 1 ∧
      getSubscriptInfo
          (.subE (.subE (.nameE "x") (.constE (.intC 0))) (.constE (.intC 0)))
        = (some "x", 2) :=
  ⟨rfl, rfl, rfl⟩

/-! Association-list lemmas used for the amended depth claim. -/

theorem lookup_assocSet {α : Type} (d : List (String × α)) (k v : String) (n : α) :
    (assocSet d k n).lookup v = if v = k then some n else d.lookup v := by
  induction d with
  | nil =>
    by_cases h : v = k
    · simp [assocSet, List.lookup, h]
    · have hb : (v == k) = false := by simp [h]
      simp [assocSet, List.lookup, h, hb]
  | cons p rest ih =>
    obtain ⟨k', n'⟩ := p
    by_cases hk : k' = k
    · subst hk
      by_cases hv : v = k'
      · simp [assocSet, List.lookup, hv]
      · have hb : (v == k') = false := by simp [hv]
        simp [assocSet, List.lookup, hv, hb]
    · by_cases hv : v = k'
      · subst hv
        have hvk : ¬ v = k := hk
        simp [assocSet, List.lookup, hk, hvk]
      · have hb : (v == k') = false := by simp [hv]
        simp [assocSet, List.lookup, hk, hb, ih]

theorem lookup_append_single {α : Type} (d : List (String × α)) (k v : String) (a : α) :
    (d ++ [(k, a)]).lookup v =
      match d.lookup v with
      | some x => some x
      | none => if v = k then some a else none := by
  induction d with
  | nil =>
    by_cases h : v = k
    · simp [List.lookup, h]
    · have hb : (v == k) = false := by simp [h]
      simp [List.lookup, h, hb]
  | cons p rest ih =>
    obtain ⟨k', n'⟩ := p
    by_cases hv : v = k'
    · simp [List.lookup, hv]
    · have hb : (v == k') = false := by simp [hv]
      simp [List.lookup, hb, ih]

theorem depthGet_depthTouch (d : List (String × Nat)) (k v : String) :
    depthGet (depthTouch d k) v = depthGet d v := by
  unfold depthTouch
  cases h : d.lookup k with
  | some n => rfl
  | none =>
    unfold depthGet
    rw [lookup_append_single]
    cases hv : d.lookup v with
    | some x => rfl
    | none => by_cases hk : v = k <;> simp [hk]

theorem depthGet_assocSet (d : List (String × Nat)) (k v : String) (n : Nat) :
    depthGet (assocSet d k n) v = if v = k then n else depthGet d v := by
  unfold depthGet
  rw [lookup_assocSet]
  by_cases h : v = k <;> simp [h]

theorem subVisit_depth_mono (s0 : AState) (base : String) (depth : Nat) (x : String) :
    depthGet s0.varDepth x ≤
      depthGet (AState.varDepth
        (let s := { s0 with varDepth := depthTouch s0.varDepth base }
         let s :=
           if depth > depthGet s.varDepth base then
             { s with varDepth := assocSet s.varDepth base depth }
           else s
         if depth == 1 then { s with vars1d := sadd s.vars1d base }
         else if depth ≥ 2 then { s with vars2d := sadd s.vars2d base }
         else s)) x := by
  simp only
  (repeat' split) <;>
    by_cases hx : x = base <;>
    simp_all [depthGet_assocSet, depthGet_depthTouch] <;>
    omega

mutual

theorem avisit_depth_mono (s : AState) (e : PExpr) (x : String) :
    depthGet s.varDepth x ≤ depthGet (avisit s e).varDepth x := by
  cases e with
  | constE c => simp [avisit]
  | nameE i => simp [avisit]
  | unaryE op operand => simpa [avisit] using avisit_depth_mono s operand x
  | binE op l r =>
    simp only [avisit]
    exact (avisit_depth_mono s l x).trans (avisit_depth_mono (avisit s l) r x)
  | boolE op vs =>
    simp only [avisit]
    exact avisitList_depth_mono s vs x
  | cmpE l rest =>
    simp only [avisit]
    refine le_trans ?_ (le_trans (avisit_depth_mono _ l x)
      (avisitPairs_depth_mono _ rest x))
    split <;> exact le_rfl
  | subE val sl =>
    simp only [avisit]
    refine le_trans ?_ (le_trans (avisit_depth_mono _ val x)
      (avisit_depth_mono _ sl x))
    rcases hg : getSubscriptInfo (PExpr.subE val sl) with ⟨b, depth⟩
    cases b with
    | none => exact le_rfl
    | some base => exact subVisit_depth_mono s base depth x
  | sliceE l u st =>
    cases l with
    | none =>
      cases u with
      | none =>
        cases st with
        | none => simp [avisit]
        | some e3 => simpa [avisit] using avisit_depth_mono s e3 x
      | some e2 =>
        cases st with
        | none => simpa [avisit] using avisit_depth_mono s e2 x
        | some e3 =>
          simpa [avisit] using
            (avisit_depth_mono s e2 x).trans (avisit_depth_mono _ e3 x)
    | some e1 =>
      cases u with
      | none =>
        cases st with
        | none => simpa [avisit] using avisit_depth_mono s e1 x
        | some e3 =>
          simpa [avisit] using
            (avisit_depth_mono s e1 x).trans (avisit_depth_mono _ e3 x)
      | some e2 =>
        cases st with
        | none =>
          simpa [avisit] using
            (avisit_depth_mono s e1 x).trans (avisit_depth_mono _ e2 x)
        | some e3 =>
          simpa [avisit] using
            ((avisit_depth_mono s e1 x).trans
              (avisit_depth_mono _ e2 x)).trans (avisit_depth_mono _ e3 x)
  | attrE val attrName =>
    simp only [avisit]
    refine le_trans ?_ (avisit_depth_mono _ val x)
    cases val <;> (repeat' split) <;> exact le_rfl
  | callE f args =>
    simp only [avisit]
    refine le_trans ?_ (le_trans (avisit_depth_mono _ f x)
      (avisitList_depth_mono _ args x))
    cases f <;> (repeat' split) <;> exact le_rfl
  | listE es =>
    simp only [avisit]
    exact avisitList_depth_mono s es x
  | tupleE es =>
    simp only [avisit]
    exact avisitList_depth_mono s es x
  | ifExpE t b o =>
    simp only [avisit]
    exact ((avisit_depth_mono _ t x).trans (avisit_depth_mono _ b x)).trans
      (avisit_depth_mono _ o x)
termination_by structural e

theorem avisitList_depth_mono (s : AState) (l : List PExpr) (x : String) :
    depthGet s.varDepth x ≤ depthGet (avisitList s l).varDepth x := by
  cases l with
  | nil => simp [avisitList]
  | cons e es =>
    simp only [avisitList]
    exact (avisit_depth_mono s e x).trans (avisitList_depth_mono (avisit s e) es x)
termination_by structural l

theorem avisitPairs_depth_mono (s : AState) (l : List (CmpK × PExpr)) (x : String) :
    depthGet s.varDepth x ≤ depthGet (avisitPairs s l).varDepth x := by
  cases l with
  | nil => simp [avisitPairs]
  | cons p rest =>
    obtain ⟨op, e⟩ := p
    simp only [avisitPairs]
    exact (avisit_depth_mono s e x).trans (avisitPairs_depth_mono (avisit s e) rest x)
termination_by structural l

end

/-- C4 (amended): during a single traversal, `variableDepth[v]` never
decreases across the traversal of any expression — `visit_Subscript` only
ever raises it to the largest observed depth — but a later simple
assignment (`_handle_simple_assign`) overwrites it with the assigned
literal's dimension, which can decrease it (see `c4_counterexample`), so
the final value need not equal the maximum subscript nesting observed. -/
theorem c4_amended_depth_monotone_in_expressions (s : AState) (e : PExpr)
    (x : String) :
    depthGet s.varDepth x ≤ depthGet (avisit s e).varDepth x :=
  avisit_depth_mono s e x

/-! ### InstrumentedTranslator (src/translator.py) -/

/-- The four base-tracer call kinds the translator can emit. -/
inductive TKind where
  | select | deselect | patch | depatch
deriving Repr, DecidableEq

/-- Tag carried by a tracer emit site: the base name and kind the source
interpolates into `f"{base}Tracer.<kind>({args});"`. -/
structure TracerTag where
  base : String
  kind : TKind
deriving Repr, DecidableEq

/-- One emitted output line: the exact text the source appends to
`self.lines`, plus — only for the tracer emit sites — a tag recording which
base/kind that site interpolated (used to state the gating invariant). -/
structure TLine where
  text : String
  tag : Option TracerTag := none
deriving Repr, DecidableEq

/-- The polyfill helpers `helpers_needed` can request. -/
inductive Helper where
  | idx | zip | defaultdictH | counter | heap | sumH | sortedH | reversedH
deriving Repr, DecidableEq

/-- The translator's immutable configuration: the traceable sets (from the
summary) and the precomputed parameter bindings.  The source stores these
on `self` but never mutates them. -/
structure Ctx where
  traceable1d : List String := []
  traceable2d : List String := []
  paramBindings : List (String × List (String × Option String)) := []
deriving Repr

/-- The translator's mutable state.  `scopeStack` and `funcStack` keep the
top at the head (the source appends at the end and reads `[-1]`). -/
structure TState where
  lines : List TLine := []
  ind : Nat := 0
  tmpCounter : Nat := 0
  scopeStack : List (List String) := [[]]
  funcStack : List String := []
  helpersNeeded : List Helper := []
  loopStack : List String := []
deriving Repr

/-- `"  " * self.ind`. -/
def indentOf (n : Nat) : String :=
  String.join (List.replicate n "  ")

/-- `InstrumentedTranslator.emit`. -/
def emitL (s : TState) (str : String) : TState :=
  { s with lines := s.lines ++ [{ text := indentOf s.ind ++ str }] }

def tkindStr : TKind → String
  | .select => "select"
  | .deselect => "deselect"
  | .patch => "patch"
  | .depatch => "depatch"

/-- The tracer emit sites `self.emit(f"{base}Tracer.<kind>({args});")`,
tagged with the interpolated base and kind. -/
def emitTracer (s : TState) (base : String) (kind : TKind) (args : String) :
    TState :=
  { s with lines := s.lines ++
      [{ text := indentOf s.ind ++ base ++ "Tracer." ++ tkindStr kind ++
           "(" ++ args ++ ");",
         tag := some { base := base, kind := kind } }] }

/-- `InstrumentedTranslator._gensym`. -/
def gensym (s : TState) : String × TState :=
  ("__tmp" ++ toString (s.tmpCounter + 1), { s with tmpCounter := s.tmpCounter + 1 })

/-- `InstrumentedTranslator._is_declared`. -/
def isDeclared (s : TState) (name : String) : Bool :=
  s.scopeStack.any (fun sc => name ∈ sc)

/-- `InstrumentedTranslator._declare`. -/
def declareVar (s : TState) (name : String) : TState :=
  match s.scopeStack with
  | [] => { s with scopeStack := [[name]] }
  | top :: rest => { s with scopeStack := sadd top name :: rest }

/-- `InstrumentedTranslator._emit_decl_or_assign`. -/
def emitDeclOrAssign (s : TState) (name rhsJs : String) : TState :=
  if isDeclared s name then emitL s (name ++ " = " ++ rhsJs ++ ";")
  else declareVar (emitL s ("let " ++ name ++ " = " ++ rhsJs ++ ";")) name

/-- `InstrumentedTranslator._mapped_tracer_base`: map a parameter name to
the caller's argument name.  Python's `if arg:` treats `None` (and the
empty string, which cannot arise as an identifier) as falsy. -/
def mappedTracerBase (ctx : Ctx) (s : TState) (baseName : String) : String :=
  match s.funcStack with
  | fname :: _ =>
      match ctx.paramBindings.lookup fname with
      | some m =>
          match m.lookup baseName with
          | some (some arg) => arg
          | _ => baseName
      | none => baseName
  | [] => baseName

/-- Union freshly requested helpers into `helpers_needed` (a set). -/
def addHelpers (s : TState) (hs : List Helper) : TState :=
  { s with helpersNeeded :=
      hs.foldl (fun acc h => if h ∈ acc then acc else acc ++ [h]) s.helpersNeeded }

/-- The chain loop of `_subscript_chain`: collect slices walking inward
(`idxs.insert(0, cur.slice)`), breaking once more than 10 were collected. -/
def subChainLoop : PExpr → List PExpr → PExpr × List PExpr
  | .subE v sl, idxs =>
      let idxs := sl :: idxs
      if idxs.length > 10 then (v, idxs) else subChainLoop v idxs
  | e, idxs => (e, idxs)
termination_by structural e => e

/-- `InstrumentedTranslator._subscript_chain`. -/
def subscriptChain (e : PExpr) : Option String × List PExpr :=
  match subChainLoop e [] with
  | (.nameE id, idxs) => (some id, idxs)
  | (_, idxs) => (none, idxs)

/-- Python `repr` of the embedded constants, as `_handle_constant` falls
back to `repr(v)` (only `int` remains; `bool`/`None` are special-cased
before the fallback). -/
def handleConstant : Konst → String
  | .noneC => "null"
  | .boolC b => if b then "true" else "false"
  | .intC n => toString n

/-- The operator table of `_handle_binary_op` (after the `[x] * n` special
case); `pow` has no case and hits the `/*op*/` fallback. -/
def binOpText (op : BinK) (l r : String) : String :=
  match op with
  | .add => "(" ++ l ++ " + " ++ r ++ ")"
  | .sub => "(" ++ l ++ " - " ++ r ++ ")"
  | .mult => "(" ++ l ++ " * " ++ r ++ ")"
  | .div => "(" ++ l ++ " / " ++ r ++ ")"
  | .mod => "(" ++ l ++ " % " ++ r ++ ")"
  | .floorDiv => "Math.floor(" ++ l ++ " / " ++ r ++ ")"
  | .pow => "(" ++ l ++ " /*op*/ " ++ r ++ ")"

/-- The operator table of `_handle_compare` (every `ast.cmpop` has a case,
so the `/*cmp*/` fallback is dead in the source too). -/
def cmpOpText (op : CmpK) (l r : String) : String :=
  match op with
  | .eq => "(" ++ l ++ " === " ++ r ++ ")"
  | .ne => "(" ++ l ++ " !== " ++ r ++ ")"
  | .lt => "(" ++ l ++ " < " ++ r ++ ")"
  | .le => "(" ++ l ++ " <= " ++ r ++ ")"
  | .gt => "(" ++ l ++ " > " ++ r ++ ")"
  | .ge => "(" ++ l ++ " >= " ++ r ++ ")"
  | .isK => "(" ++ l ++ " === " ++ r ++ ")"
  | .isNotK => "(" ++ l ++ " !== " ++ r ++ ")"
  | .inK =>
      "((" ++ r ++ " instanceof Set) ? " ++ r ++ ".has(" ++ l ++ ") : (" ++
        l ++ " in " ++ r ++ "))"
  | .notInK =>
      "!(((" ++ r ++ " instanceof Set) ? " ++ r ++ ".has(" ++ l ++ ") : (" ++
        l ++ " in " ++ r ++ ")))"

/-- `InstrumentedTranslator._norm_idx`.  The source computes
`self.js_expr(idx_node)` lazily, in the `BinOp` branch and the `__idx`
fallback only; since the branches that skip it (loop-variable names and
integer literals) translate with no helper side effects, passing the
translation `idxJs` in eagerly is observationally identical and keeps the
function non-recursive. -/
def normIdx (ls : List String) (arrJs : String) (idx : PExpr) (idxJs : String) :
    String × List Helper :=
  match idx with
  | .nameE varName =>
      if varName ∈ ls ∨ varName = "i" ∨ varName = "j" ∨ varName = "k" ∨
          varName = "mid" ∨ varName = "left" ∨ varName = "right" ∨
          varName = "c" ∨ varName = "r" then
        (varName, [])
      else ("__idx(" ++ arrJs ++ ", " ++ idxJs ++ ")", [Helper.idx])
  | .unaryE .usub (.constE (.intC n)) =>
      ("(" ++ arrJs ++ ".length - " ++ toString n ++ ")", [])
  | .constE (.intC n) =>
      if n < 0 then ("(" ++ arrJs ++ ".length + " ++ toString n ++ ")", [])
      else (toString n, [])
  | .constE (.boolC b) =>
      -- Python quirk: `isinstance(True, int)` holds, and `str(True)` is "True"
      (if b then "True" else "False", [])
  | .binE _ (.nameE lid) _ =>
      if lid ∈ ls then (idxJs, [])
      else ("__idx(" ++ arrJs ++ ", " ++ idxJs ++ ")", [Helper.idx])
  | _ => ("__idx(" ++ arrJs ++ ", " ++ idxJs ++ ")", [Helper.idx])

/-- Method-call emission shared by the attribute branch of `_handle_call`
(deque methods mapped, otherwise `obj.method(args)`). -/
def methodCallText (objJs m : String) (argsJs : List String) : String :=
  if m = "appendleft" then objJs ++ ".unshift(" ++ String.intercalate ", " argsJs ++ ")"
  else if m = "popleft" then objJs ++ ".shift()"
  else objJs ++ "." ++ m ++ "(" ++ String.intercalate ", " argsJs ++ ")"

mutual

/-- `InstrumentedTranslator.js_expr` (with `_handle_unary_op`,
`_handle_binary_op`, `_handle_bool_op`, `_handle_compare`,
`_handle_subscript`, `_handle_slice`, `_handle_call` inlined at their
dispatch sites).  Takes the translator's `loop_stack`; the second
component collects the `helpers_needed.add` calls performed.  The
`float('inf')` branch and the comprehension handlers are dead on this
fragment (no float/string constants, no comprehension constructors);
`ifExpE` and a slice outside subscript position reach the `/*expr*/`
fallback. -/
def jsExpr (ls : List String) : PExpr → String × List Helper
  | .constE c => (handleConstant c, [])
  | .nameE id => (id, [])
  | .unaryE .notK operand =>
      let (inner, h) := jsExpr ls operand
      ("!(" ++ inner ++ ")", h)
  | .unaryE .usub (.constE (.intC n)) => ("-" ++ toString n, [])
  | .unaryE .usub (.constE (.boolC b)) =>
      -- repr of a bool constant under unary minus (bool is int in Python)
      ("-" ++ (if b then "True" else "False"), [])
  | .unaryE .usub operand =>
      let (inner, h) := jsExpr ls operand
      ("-(" ++ inner ++ ")", h)
  | .unaryE .uadd operand =>
      let (inner, h) := jsExpr ls operand
      ("/*unary*/(" ++ inner ++ ")", h)
  | .binE .mult (.listE [e]) rr =>
      let (nJs, h1) := jsExpr ls rr
      let (elemJs, h2) := jsExpr ls e
      ("new Array(" ++ nJs ++ ").fill(" ++ elemJs ++ ")", h1 ++ h2)
  | .binE .mult ll (.listE [e]) =>
      let (nJs, h1) := jsExpr ls ll
      let (elemJs, h2) := jsExpr ls e
      ("new Array(" ++ nJs ++ ").fill(" ++ elemJs ++ ")", h1 ++ h2)
  | .binE op l r =>
      let (lJs, h1) := jsExpr ls l
      let (rJs, h2) := jsExpr ls r
      (binOpText op lJs rJs, h1 ++ h2)
  | .boolE op vs =>
      let (parts, h) := jsExprList ls vs
      (match op with
       | .andK => "(" ++ String.intercalate " && " parts ++ ")"
       | .orK => "(" ++ String.intercalate " || " parts ++ ")", h)
  | .cmpE left rest =>
      let (leftJs, h1) := jsExpr ls left
      let (parts, h2) := cmpParts ls leftJs rest
      ("(" ++ String.intercalate " && " parts ++ ")", h1 ++ h2)
  | .subE v sl =>
      -- _handle_subscript.  The translations of the slice/index subterms are
      -- computed up front (pure), and each branch below uses exactly the ones
      -- the source computes on that path, so the collected helpers match.
      let pSl := jsExpr ls sl
      let pSlice :=
        match sl with
        | .sliceE lo hi stp =>
            some ((match lo with | some e => some (jsExpr ls e) | none => none),
                  (match hi with | some e => some (jsExpr ls e) | none => none),
                  (match stp with | some e => some (jsExpr ls e) | none => none))
        | _ => none
      let pInner :=
        match v with
        | .subE (.nameE _) isl => some (jsExpr ls isl, isl)
        | _ => none
      let vIsName := match v with | .nameE _ => true | _ => false
      match subscriptChain (.subE v sl) with
      | (none, _) => ("/*subscript*/", [])
      | (some base, _) =>
          match pSlice with
          | some (plo, phi, pstp) =>
              -- _handle_slice
              let (lower, h1) := match plo with | some p => p | none => ("0", [])
              let (upper, h2) :=
                match phi with | some p => p | none => (base ++ ".length", [])
              let (step, h3) := match pstp with | some p => p | none => ("", [])
              if step = "" ∨ step = "1" ∨ step = "null" then
                (base ++ ".slice(" ++ lower ++ ", " ++ upper ++ ")", h1 ++ h2 ++ h3)
              else if step = "-1" then
                ("__reversed(" ++ base ++ ".slice(" ++ lower ++ ", " ++ upper ++ "))",
                 h1 ++ h2 ++ h3 ++ [Helper.reversedH])
              else
                ("/*slice_step*/ " ++ base ++ ".slice(" ++ lower ++ ", " ++ upper ++ ")",
                 h1 ++ h2 ++ h3)
          | none =>
              if vIsName then
                -- chain length 1
                let (idxJs, h1) := pSl
                let (i, h2) := normIdx ls base sl idxJs
                (base ++ "[" ++ i ++ "]", h1 ++ h2)
              else
                match pInner with
                | some ((idx0Js, h1), isl) =>
                    -- chain length 2
                    let (i, h2) := normIdx ls base isl idx0Js
                    let (j, h3) := pSl
                    (base ++ "[" ++ i ++ "][" ++ j ++ "]", h1 ++ h2 ++ h3)
                | none => ("/*multi_subscript*/", [])
  | .sliceE _ _ _ => ("/*expr*/", [])
  | .attrE v a =>
      let (vJs, h) := jsExpr ls v
      (vJs ++ "." ++ a, h)
  | .callE (.nameE "len") (a0 :: rest) =>
      -- _handle_call: the len() branch (requires at least one argument)
      let (aJs, h) := jsExpr ls a0
      let _ := rest
      (aJs ++ ".length", h)
  | .callE (.attrE (.nameE "heapq") m) args' =>
      if m = "heappush" then
        match args' with
        | a0 :: a1 :: _ =>
            let (x0, h1) := jsExpr ls a0
            let (x1, h2) := jsExpr ls a1
            ("__heappush(" ++ x0 ++ ", " ++ x1 ++ ")", Helper.heap :: (h1 ++ h2))
        | _ =>
            -- the source would raise IndexError here (args[1] missing)
            ("/*call*/", [Helper.heap])
      else if m = "heappop" then
        match args' with
        | a0 :: _ =>
            let (x0, h1) := jsExpr ls a0
            ("__heappop(" ++ x0 ++ ")", Helper.heap :: h1)
        | _ => ("/*call*/", [Helper.heap])
      else
        -- HEAP was requested; falls through to the method-call branch
        let (argsJs, h2) := jsExprList ls args'
        (methodCallText "heapq" m argsJs, Helper.heap :: h2)
  | .callE (.nameE "TreeNode") args' =>
      let (argsJs, h) := jsExprList ls args'
      ("new TreeNode(" ++ String.intercalate ", " argsJs ++ ")", h)
  | .callE (.nameE fname) args' =>
      match handleBuiltin ls fname args' with
      | some r => r
      | none =>
          let (argsJs, h) := jsExprList ls args'
          (fname ++ "(" ++ String.intercalate ", " argsJs ++ ")", h)
  | .callE (.attrE obj m) args' =>
      let (objJs, h1) := jsExpr ls obj
      let (argsJs, h2) := jsExprList ls args'
      (methodCallText objJs m argsJs, h1 ++ h2)
  | .callE _ args' =>
      let _ := args'
      ("/*call*/", [])
  | .listE es =>
      let (parts, h) := jsExprList ls es
      ("[" ++ String.intercalate ", " parts ++ "]", h)
  | .tupleE es =>
      let (parts, h) := jsExprList ls es
      ("[" ++ String.intercalate ", " parts ++ "]", h)
  | .ifExpE _ _ _ => ("/*expr*/", [])
termination_by structural e => e

/-- `js_expr` over an argument/element list. -/
def jsExprList (ls : List String) : List PExpr → List String × List Helper
  | [] => ([], [])
  | e :: es =>
      let (x, h1) := jsExpr ls e
      let (xs, h2) := jsExprList ls es
      (x :: xs, h1 ++ h2)
termination_by structural l => l

/-- The `zip(node.ops, node.comparators)` loop of `_handle_compare`,
threading `cur_left`. -/
def cmpParts (ls : List String) (curLeft : String) :
    List (CmpK × PExpr) → List String × List Helper
  | [] => ([], [])
  | (op, comp) :: rest =>
      let (rightJs, h1) := jsExpr ls comp
      let part := cmpOpText op curLeft rightJs
      let (parts, h2) := cmpParts ls rightJs rest
      (part :: parts, h1 ++ h2)
termination_by structural l => l

/-- `InstrumentedTranslator._handle_builtin` (`none` = no builtin handling,
the caller emits a generic call).  `dict` keyword arguments are outside the
fragment, so the keywords branch is dead. -/
def handleBuiltin (ls : List String) (fname : String) :
    List PExpr → Option (String × List Helper)
  | [] => none
  | a0 :: restArgs =>
      -- each branch translates exactly the arguments the source translates,
      -- so the collected helpers match the source's side effects
      if fname = "list" then
        let (x0, h0) := jsExpr ls a0
        some ("[..." ++ x0 ++ "]", h0)
      else if fname = "tuple" then
        let (x0, h0) := jsExpr ls a0
        some ("[..." ++ x0 ++ "]", h0)
      else if fname = "set" then
        let (x0, h0) := jsExpr ls a0
        some ("new Set(" ++ x0 ++ ")", h0)
      else if fname = "dict" then
        let (x0, h0) := jsExpr ls a0
        some ("Object.fromEntries(" ++ x0 ++ ")", h0)
      else if fname = "max" then
        if restArgs.length + 1 > 1 then
          let (x0, h0) := jsExpr ls a0
          let (restJs, hr) := jsExprList ls restArgs
          some ("Math.max(" ++ String.intercalate ", " (x0 :: restJs) ++ ")", h0 ++ hr)
        else
          let (x0, h0) := jsExpr ls a0
          some ("Math.max(..." ++ x0 ++ ")", h0)
      else if fname = "min" then
        if restArgs.length + 1 > 1 then
          let (x0, h0) := jsExpr ls a0
          let (restJs, hr) := jsExprList ls restArgs
          some ("Math.min(" ++ String.intercalate ", " (x0 :: restJs) ++ ")", h0 ++ hr)
        else
          let (x0, h0) := jsExpr ls a0
          some ("Math.min(..." ++ x0 ++ ")", h0)
      else if fname = "sum" then
        let (x0, h0) := jsExpr ls a0
        some ("__sum(" ++ x0 ++ ")", Helper.sumH :: h0)
      else if fname = "abs" then
        let (x0, h0) := jsExpr ls a0
        some ("Math.abs(" ++ x0 ++ ")", h0)
      else if fname = "sorted" then
        let (x0, h0) := jsExpr ls a0
        some ("__sorted(" ++ x0 ++ ")", Helper.sortedH :: h0)
      else if fname = "reversed" then
        let (x0, h0) := jsExpr ls a0
        some ("__reversed(" ++ x0 ++ ")", Helper.reversedH :: h0)
      else if fname = "enumerate" then
        let (x0, h0) := jsExpr ls a0
        some ("Array.from(" ++ x0 ++ ".entries())", h0)
      else if fname = "zip" then
        let (x0, h0) := jsExpr ls a0
        let (restJs, hr) := jsExprList ls restArgs
        some ("__zip(" ++ String.intercalate ", " (x0 :: restJs) ++ ")",
          Helper.zip :: (h0 ++ hr))
      else if fname = "defaultdict" then
        some ("__defaultdict(() => [])", [Helper.defaultdictH])
      else if fname = "Counter" then
        let (x0, h0) := jsExpr ls a0
        some ("__counter(" ++ x0 ++ ")", Helper.counter :: h0)
      else if fname = "heappush" then
        if restArgs.length + 1 = 2 then
          let (x0, h0) := jsExpr ls a0
          let (restJs, hr) := jsExprList ls restArgs
          some ("__heappush(" ++ String.intercalate ", " (x0 :: restJs) ++ ")",
            Helper.heap :: (h0 ++ hr))
        else none
      else if fname = "heappop" then
        let (x0, h0) := jsExpr ls a0
        some ("__heappop(" ++ x0 ++ ")", Helper.heap :: h0)
      else none
termination_by structural l => l

end

mutual

/-- All `ast.Subscript` nodes in an expression (the `ast.walk` collections;
the source walks breadth-first, this walk is pre-order — every use feeds a
set or a first-match search). -/
def walkSubsExpr : PExpr → List PExpr
  | .constE _ => []
  | .nameE _ => []
  | .unaryE _ e => walkSubsExpr e
  | .binE _ l r => walkSubsExpr l ++ walkSubsExpr r
  | .boolE _ vs => walkSubsList vs
  | .cmpE l rest => walkSubsExpr l ++ walkSubsPairs rest
  | .subE v sl => .subE v sl :: (walkSubsExpr v ++ walkSubsExpr sl)
  | .sliceE l u st =>
      (match l with | some e => walkSubsExpr e | none => []) ++
        (match u with | some e => walkSubsExpr e | none => []) ++
        (match st with | some e => walkSubsExpr e | none => [])
  | .attrE v _ => walkSubsExpr v
  | .callE f args => walkSubsExpr f ++ walkSubsList args
  | .listE es => walkSubsList es
  | .tupleE es => walkSubsList es
  | .ifExpE t b o => walkSubsExpr t ++ walkSubsExpr b ++ walkSubsExpr o
termination_by structural e => e

def walkSubsList : List PExpr → List PExpr
  | [] => []
  | e :: es => walkSubsExpr e ++ walkSubsList es
termination_by structural l => l

def walkSubsPairs : List (CmpK × PExpr) → List PExpr
  | [] => []
  | (_, e) :: rest => walkSubsExpr e ++ walkSubsPairs rest
termination_by structural l => l

end

mutual

/-- All `ast.Name` ids in an expression (for `_extract_while_viz_info`). -/
def walkNamesExpr : PExpr → List String
  | .constE _ => []
  | .nameE id => [id]
  | .unaryE _ e => walkNamesExpr e
  | .binE _ l r => walkNamesExpr l ++ walkNamesExpr r
  | .boolE _ vs => walkNamesList vs
  | .cmpE l rest => walkNamesExpr l ++ walkNamesPairs rest
  | .subE v sl => walkNamesExpr v ++ walkNamesExpr sl
  | .sliceE l u st =>
      (match l with | some e => walkNamesExpr e | none => []) ++
        (match u with | some e => walkNamesExpr e | none => []) ++
        (match st with | some e => walkNamesExpr e | none => [])
  | .attrE v _ => walkNamesExpr v
  | .callE f args => walkNamesExpr f ++ walkNamesList args
  | .listE es => walkNamesList es
  | .tupleE es => walkNamesList es
  | .ifExpE t b o => walkNamesExpr t ++ walkNamesExpr b ++ walkNamesExpr o
termination_by structural e => e

def walkNamesList : List PExpr → List String
  | [] => []
  | e :: es => walkNamesExpr e ++ walkNamesList es
termination_by structural l => l

def walkNamesPairs : List (CmpK × PExpr) → List String
  | [] => []
  | (_, e) :: rest => walkNamesExpr e ++ walkNamesPairs rest
termination_by structural l => l

end

mutual

/-- All `ast.Subscript` nodes anywhere inside a statement
(`ast.walk(stmt)` for `_find_primary_array_in_loop`). -/
def walkSubsStmt : PStmt → List PExpr
  | .assign targets value => walkSubsList targets ++ walkSubsExpr value
  | .augAssign t _ v => walkSubsExpr t ++ walkSubsExpr v
  | .exprStmt v => walkSubsExpr v
  | .forS t it body => walkSubsExpr t ++ walkSubsExpr it ++ walkSubsStmts body
  | .whileS t body => walkSubsExpr t ++ walkSubsStmts body
  | .ifS t b o => walkSubsExpr t ++ walkSubsStmts b ++ walkSubsStmts o
  | .funcDef _ _ body => walkSubsStmts body
  | .ret v => (match v with | some e => walkSubsExpr e | none => [])
  | .breakS => []
  | .continueS => []
  | .passS => []
  | .importS _ => []
termination_by structural st => st

def walkSubsStmts : List PStmt → List PExpr
  | [] => []
  | st :: rest => walkSubsStmt st ++ walkSubsStmts rest
termination_by structural l => l

end

/-- `InstrumentedTranslator._extract_comparison_indices`: for a comparison
test, group the subscripts' translated indices by base and keep the bases
with at least two distinct indices (first two, in walk order). -/
def extractComparisonIndices (ls : List String) (test : PExpr) :
    List (String × List String) × List Helper :=
  match test with
  | .cmpE _ _ =>
      let entries : List (String × List (String × List Helper)) :=
        (walkSubsExpr test).filterMap (fun n =>
          match subscriptChain n with
          | (some b, [i0]) => some (b, [jsExpr ls i0])
          | (some b, [i0, i1]) => some (b, [jsExpr ls i0, jsExpr ls i1])
          | _ => none)
      let helpers :=
        (entries.map (fun e => (e.2.map (·.2)).foldr (· ++ ·) [])).foldr (· ++ ·) []
      let bases := dedup (entries.map (·.1))
      let byBase := bases.map (fun b =>
        (b, ((entries.filter (fun e => e.1 = b)).map
              (fun e => e.2.map (·.1))).foldr (· ++ ·) []))
      let result := byBase.filterMap (fun p =>
        if p.2.length ≥ 2 then
          let uniq := (dedup p.2).take 2
          if uniq.length ≥ 2 then some (p.1, uniq) else none
        else none)
      (result, helpers)
  | _ => ([], [])

/-- `InstrumentedTranslator._find_primary_array_in_loop`: first subscript
base in the body (walk order) that is traceable. -/
def findPrimaryArrayInLoop (ctx : Ctx) (body : List PStmt) : Option String :=
  (walkSubsStmts body).findSome? (fun n =>
    match subscriptChain n with
    | (some b, _) =>
        if b ∈ ctx.traceable1d then some b
        else if b ∈ ctx.traceable2d then some b
        else none
    | (none, _) => none)

/-- `InstrumentedTranslator._find_mid_variable`: first top-level assignment
in the body binding exactly `mid` / `middle` / `m`. -/
def findMidVariable : List PStmt → Option String
  | [] => none
  | .assign [.nameE tid] _ :: rest =>
      if tid = "mid" ∨ tid = "middle" ∨ tid = "m" then some tid
      else findMidVariable rest
  | _ :: rest => findMidVariable rest

/-- `InstrumentedTranslator._extract_while_viz_info`: subscripted bases in
the while test (single-index only), with a two-pointer fallback when no
subscript is present but a traceable 1-D base is compared with other
names. -/
def extractWhileVizInfo (ctx : Ctx) (ls : List String) (test : PExpr) :
    List (String × List String) × List Helper :=
  let entries : List (String × (String × List Helper)) :=
    (walkSubsExpr test).filterMap (fun n =>
      match subscriptChain n with
      | (some b, [i0]) => some (b, jsExpr ls i0)
      | _ => none)
  let varNames := dedup (walkNamesExpr test)
  let helpers := (entries.map (fun e => e.2.2)).foldr (· ++ ·) []
  let bases := dedup (entries.map (·.1))
  let byBase := bases.map (fun b =>
    (b, (entries.filter (fun e => e.1 = b)).map (fun e => e.2.1)))
  let result := byBase.filterMap (fun p =>
    if p.2.length ≥ 1 then
      let uniq := (dedup p.2).take 2
      if ¬ uniq.isEmpty then some (p.1, uniq) else none
    else none)
  if result.isEmpty ∧ varNames.length ≥ 2 then
    match varNames.find? (fun v => v ∈ ctx.traceable1d) with
    | some vname =>
        let other := varNames.filter (fun v => v ≠ vname ∧ v ∉ ctx.traceable1d)
        if ¬ other.isEmpty then ([(vname, other.take 2)], helpers)
        else ([], helpers)
    | none => ([], helpers)
  else (result, helpers)

def isSubEB : PExpr → Bool
  | .subE _ _ => true
  | _ => false

/-- The swap-detection and swap-emission part of
`InstrumentedTranslator._handle_destructuring` (`none` = pattern did not
match and the regular destructuring path runs). -/
def destructuringSwap (ctx : Ctx) (s : TState) (elts velts : List PExpr) :
    Option TState :=
  let subscripts := elts.filter isSubEB
  if subscripts.length ≥ 2 ∧ velts.length = elts.length then
    if (subscripts.zip velts).all (fun p => isSubEB p.2) then
      let pairs := (elts.zip velts).map (fun p =>
        (jsExpr s.loopStack p.1, jsExpr s.loopStack p.2))
      let s := addHelpers s
        ((pairs.map (fun p => p.1.2 ++ p.2.2)).foldr (· ++ ·) [])
      let leftSide := "[" ++ String.intercalate ", " (pairs.map (·.1.1)) ++ "]"
      let rightSide := "[" ++ String.intercalate ", " (pairs.map (·.2.1)) ++ "]"
      let s := emitL s (leftSide ++ " = " ++ rightSide ++ ";")
      some (
        match pairs with
        | [p1, p2] =>
            let firstE := p1.1.1
            let secondE := p2.1.1
            if pyContainsChar firstE '[' && pyContainsChar secondE '[' then
              let base1 := (pySplitChar firstE '[').headD ""
              let base2 := (pySplitChar secondE '[').headD ""
              if base1 = base2 then
                let tracerBase := mappedTracerBase ctx s base1
                if tracerBase ∈ ctx.traceable1d then
                  let idx1 := pyRStrip ((pySplitChar firstE '[').getD 1 "") ']'
                  let idx2 := pyRStrip ((pySplitChar secondE '[').getD 1 "") ']'
                  let s := emitL s
                    ("logger.println('Swap elements at " ++ idx1 ++ " and " ++ idx2 ++ "');")
                  let s := emitTracer s tracerBase .patch (idx1 ++ ", " ++ firstE)
                  let s := emitTracer s tracerBase .patch (idx2 ++ ", " ++ secondE)
                  let s := emitL s "Tracer.delay();"
                  let s := emitTracer s tracerBase .depatch idx1
                  emitTracer s tracerBase .depatch idx2
                else s
              else s
            else s
        | _ => s)
    else none
  else none

/-- `InstrumentedTranslator._handle_destructuring` (translator side). -/
def tHandleDestructuring (ctx : Ctx) (s : TState) (elts : List PExpr)
    (value : PExpr) : TState :=
  let names := elts.filterMap (fun e => match e with | .nameE n => some n | _ => none)
  let veltsOpt :=
    match value with
    | .tupleE ve => some ve
    | .listE ve => some ve
    | _ => none
  let swapped :=
    match veltsOpt with
    | some velts => destructuringSwap ctx s elts velts
    | none => none
  match swapped with
  | some s' => s'
  | none =>
      -- regular destructuring
      match veltsOpt with
      | some velts =>
          if velts.length = names.length then
            (names.zip velts).foldl (fun s p =>
              let (rhs, hs) := jsExpr s.loopStack p.2
              emitDeclOrAssign (addHelpers s hs) p.1 rhs) s
          else
            let (tmp, s) := gensym s
            let (vJs, hs) := jsExpr s.loopStack value
            let s := addHelpers s hs
            let s := emitL s ("const " ++ tmp ++ " = " ++ vJs ++ ";")
            names.enum.foldl (fun s p =>
              emitDeclOrAssign s p.2 (tmp ++ "[" ++ toString p.1 ++ "]")) s
      | none =>
          let (tmp, s) := gensym s
          let (vJs, hs) := jsExpr s.loopStack value
          let s := addHelpers s hs
          let s := emitL s ("const " ++ tmp ++ " = " ++ vJs ++ ";")
          names.enum.foldl (fun s p =>
            emitDeclOrAssign s p.2 (tmp ++ "[" ++ toString p.1 ++ "]")) s

/-- `InstrumentedTranslator._handle_subscript_assign` (translator side). -/
def tHandleSubscriptAssign (ctx : Ctx) (s : TState) (target value : PExpr) :
    TState :=
  let chain := subscriptChain target
  let (rhs, h0) := jsExpr s.loopStack value
  let s := addHelpers s h0
  match chain with
  | (none, _) => s
  | (some base, idxs) =>
      match idxs with
      | [i0] =>
          let (idxJs, h1) := jsExpr s.loopStack i0
          let s := addHelpers s h1
          let s :=
            if strContains (pyLower base) "defaultdict" then
              emitL s (base ++ "[" ++ idxJs ++ "].push(" ++ rhs ++ ");")
            else emitL s (base ++ "[" ++ idxJs ++ "] = " ++ rhs ++ ";")
          let tracerBase := mappedTracerBase ctx s base
          if tracerBase ∈ ctx.traceable1d then
            let s := emitL s
              ("logger.println('Update " ++ base ++ "[' + " ++ idxJs ++
                " + '] = ' + " ++ rhs ++ ");")
            let s := emitTracer s tracerBase .patch (idxJs ++ ", " ++ rhs)
            let s := emitL s "Tracer.delay();"
            emitTracer s tracerBase .depatch idxJs
          else s
      | [i0, i1] =>
          let (idx0Js, h1) := jsExpr s.loopStack i0
          let (iStr, h1') := normIdx s.loopStack base i0 idx0Js
          let (jStr, h2) := jsExpr s.loopStack i1
          let s := addHelpers s (h1 ++ h1' ++ h2)
          let s := emitL s (base ++ "[" ++ iStr ++ "][" ++ jStr ++ "] = " ++ rhs ++ ";")
          let tracerBase := mappedTracerBase ctx s base
          if tracerBase ∈ ctx.traceable2d then
            let s := emitL s
              ("logger.println('Update " ++ base ++ "[' + " ++ iStr ++
                " + '][' + " ++ jStr ++ " + '] = ' + " ++ rhs ++ ");")
            let s := emitTracer s tracerBase .patch
              (iStr ++ ", " ++ jStr ++ ", " ++ rhs)
            let s := emitL s "Tracer.delay();"
            emitTracer s tracerBase .depatch (iStr ++ ", " ++ jStr)
          else s
      | _ => s

/-- The extra select-delay-deselect of `visit_While` after a statement that
assigns the detected midpoint variable: the source iterates
`self.traceable_1d` but `break`s after the first element. -/
def midSelect (ctx : Ctx) (midVar : Option String) (st : PStmt) (s : TState) :
    TState :=
  match midVar, st with
  | some mv, .assign [.nameE tid] _ =>
      if tid = mv then
        match ctx.traceable1d with
        | [] => s
        | base :: _ =>
            let s := emitTracer s base .select mv
            let s := emitL s "Tracer.delay();"
            emitTracer s base .deselect mv
      else s
  | _, _ => s

mutual

/-- The statement dispatch of `InstrumentedTranslator`: one case per
`visit_X` statement visitor; `importS` (no visitor) hits the overridden
`generic_visit`, which does nothing. -/
def visitStmt (ctx : Ctx) : PStmt → TState → TState
  | .assign targets value, s =>
      -- visit_Assign: `if len(node.targets) != 1: return`
      match targets with
      | [t] =>
          match t with
          | .tupleE elts => tHandleDestructuring ctx s elts value
          | .listE elts => tHandleDestructuring ctx s elts value
          | .nameE name =>
              let (rhs, hs) := jsExpr s.loopStack value
              emitDeclOrAssign (addHelpers s hs) name rhs
          | .subE v sl => tHandleSubscriptAssign ctx s (.subE v sl) value
          | _ => s
      | _ => s
  | .augAssign target op value, s =>
      -- visit_AugAssign
      let (targetJs, h1) := jsExpr s.loopStack target
      let (valueJs, h2) := jsExpr s.loopStack value
      let s := addHelpers s (h1 ++ h2)
      let opStr : Option String :=
        match op with
        | .add => some "+"
        | .sub => some "-"
        | .mult => some "*"
        | .div => some "/"
        | .mod => some "%"
        | _ => none
      match opStr with
      | some o =>
          emitL s (targetJs ++ " = (" ++ targetJs ++ " " ++ o ++ " " ++ valueJs ++ ");")
      | none => emitL s "/* unsupported augassign */"
  | .exprStmt value, s =>
      -- visit_Expr
      match value with
      | .callE (.attrE obj "append") args =>
          let (baseJs, h0) := jsExpr s.loopStack obj
          let s := addHelpers s h0
          let (argJs, s) :=
            match args with
            | a :: _ =>
                let (x, h) := jsExpr s.loopStack a
                (x, addHelpers s h)
            | [] => ("undefined", s)
          let s := emitL s (baseJs ++ ".push(" ++ argJs ++ ");")
          let tracerBase := mappedTracerBase ctx s baseJs
          if tracerBase ∈ ctx.traceable1d then
            let s := emitL s
              ("logger.println('Append " ++ argJs ++ " to " ++ baseJs ++ "');")
            let s := emitTracer s tracerBase .patch
              (baseJs ++ ".length - 1, " ++ argJs)
            let s := emitL s "Tracer.delay();"
            emitTracer s tracerBase .depatch (baseJs ++ ".length - 1")
          else s
      | .callE (.nameE "print") args =>
          let (msg, s) :=
            match args with
            | a :: _ =>
                let (x, h) := jsExpr s.loopStack a
                (x, addHelpers s h)
            | [] => ("''", s)
          emitL s ("logger.println(" ++ msg ++ ");")
      | _ =>
          let (js, h) := jsExpr s.loopStack value
          emitL (addHelpers s h) (js ++ ";")
  | .forS target iter body, s =>
      -- visit_For; the range branch is _handle_range_loop
      let targetIsName := match target with | .nameE _ => true | _ => false
      let (loopVar, h0) := jsExpr s.loopStack target
      let s := addHelpers s h0
      match iter with
      | .callE (.nameE "range") args =>
          let (initStr, testStr, stepStr, s) :=
            match args with
            | [a0] =>
                let (n, hh) := jsExpr s.loopStack a0
                let s := addHelpers s hh
                ((if targetIsName && !(isDeclared s loopVar) then
                    "let " ++ loopVar ++ " = 0"
                  else loopVar ++ " = 0"),
                 loopVar ++ " < " ++ n, loopVar ++ "++", s)
            | [a0, a1] =>
                let (a, h1) := jsExpr s.loopStack a0
                let (b, h2) := jsExpr s.loopStack a1
                let s := addHelpers s (h1 ++ h2)
                ((if targetIsName && !(isDeclared s loopVar) then
                    "let " ++ loopVar ++ " = " ++ a
                  else loopVar ++ " = " ++ a),
                 loopVar ++ " < " ++ b, loopVar ++ "++", s)
            | [a0, a1, a2] =>
                let (a, h1) := jsExpr s.loopStack a0
                let (b, h2) := jsExpr s.loopStack a1
                let (c, h3) := jsExpr s.loopStack a2
                let s := addHelpers s (h1 ++ h2 ++ h3)
                let comp :=
                  match a2 with
                  | .constE (.intC n) => if n < 0 then ">" else "<"
                  | _ => "<"
                ((if targetIsName && !(isDeclared s loopVar) then
                    "let " ++ loopVar ++ " = " ++ a
                  else loopVar ++ " = " ++ a),
                 loopVar ++ " " ++ comp ++ " " ++ b,
                 loopVar ++ " += " ++ c, s)
            | _ => ("let i = 0", "i < 0", "i++", s)
          let s :=
            if targetIsName && strContains initStr "let" then declareVar s loopVar
            else s
          let s := emitL s
            ("for (" ++ initStr ++ "; " ++ testStr ++ "; " ++ stepStr ++ ") \x7b")
          let s := { s with ind := s.ind + 1 }
          let s := { s with loopStack := loopVar :: s.loopStack }
          let primary := findPrimaryArrayInLoop ctx body
          let s :=
            match primary with
            | some p =>
                let tracerBase := mappedTracerBase ctx s p
                if tracerBase ∈ ctx.traceable1d then
                  let s := emitTracer s tracerBase .select loopVar
                  emitL s "Tracer.delay();"
                else s
            | none => s
          let s := visitStmts ctx body s
          let s :=
            match primary with
            | some p =>
                let tracerBase := mappedTracerBase ctx s p
                if tracerBase ∈ ctx.traceable1d then
                  emitTracer s tracerBase .deselect loopVar
                else s
            | none => s
          let s := { s with loopStack := s.loopStack.tail }
          let s := { s with ind := s.ind - 1 }
          emitL s "\x7d"
      | _ =>
          -- for-of loop
          let (iterableJs, h1) := jsExpr s.loopStack iter
          let s := addHelpers s h1
          let s :=
            if targetIsName && !(isDeclared s loopVar) then
              declareVar
                (emitL s ("for (let " ++ loopVar ++ " of " ++ iterableJs ++ ") \x7b"))
                loopVar
            else emitL s ("for (" ++ loopVar ++ " of " ++ iterableJs ++ ") \x7b")
          let s := { s with ind := s.ind + 1 }
          let s := { s with loopStack := loopVar :: s.loopStack }
          let s := visitStmts ctx body s
          let s := { s with loopStack := s.loopStack.tail }
          let s := { s with ind := s.ind - 1 }
          emitL s "\x7d"
  | .whileS test body, s =>
      -- visit_While
      let (cond, h0) := jsExpr s.loopStack test
      let s := addHelpers s h0
      let (vizInfo, h1) := extractWhileVizInfo ctx s.loopStack test
      let s := addHelpers s h1
      let s := emitL s ("while (" ++ cond ++ ") \x7b")
      let s := { s with ind := s.ind + 1 }
      let midVar := findMidVariable body
      let s := vizInfo.foldl (fun (s : TState) (p : String × List String) =>
        let tracerBase := mappedTracerBase ctx s p.1
        if tracerBase ∈ ctx.traceable1d ∧ p.2.length ≤ 2 then
          let s := emitTracer s tracerBase .select (String.intercalate ", " p.2)
          emitL s "Tracer.delay();"
        else s) s
      let s := whileBody ctx midVar body s
      let s := vizInfo.foldl (fun (s : TState) (p : String × List String) =>
        let tracerBase := mappedTracerBase ctx s p.1
        if tracerBase ∈ ctx.traceable1d ∧ p.2.length ≤ 2 then
          emitTracer s tracerBase .deselect (String.intercalate ", " p.2)
        else s) s
      let s := { s with ind := s.ind - 1 }
      emitL s "\x7d"
  | .ifS test body orelse, s =>
      -- visit_If
      let (cond, h0) := jsExpr s.loopStack test
      let s := addHelpers s h0
      let (selectInfo, h1) := extractComparisonIndices s.loopStack test
      let s := addHelpers s h1
      let s := selectInfo.foldl (fun (s : TState) (p : String × List String) =>
        let tracerBase := mappedTracerBase ctx s p.1
        if tracerBase ∈ ctx.traceable1d ∧ p.2.length = 2 then
          emitTracer s tracerBase .select (String.intercalate ", " p.2)
        else if tracerBase ∈ ctx.traceable2d ∧ p.2.length = 2 then
          emitTracer s tracerBase .select (String.intercalate ", " p.2)
        else s) s
      let s := if ¬ selectInfo.isEmpty then emitL s "Tracer.delay();" else s
      let s := emitL s ("if (" ++ cond ++ ") \x7b")
      let s := { s with ind := s.ind + 1 }
      let s := visitStmts ctx body s
      let s := { s with ind := s.ind - 1 }
      let s :=
        if ¬ orelse.isEmpty then
          let s := emitL s "\x7d else \x7b"
          let s := { s with ind := s.ind + 1 }
          let s := visitStmts ctx orelse s
          { s with ind := s.ind - 1 }
        else s
      let s := emitL s "\x7d"
      selectInfo.foldl (fun (s : TState) (p : String × List String) =>
        let tracerBase := mappedTracerBase ctx s p.1
        if tracerBase ∈ ctx.traceable1d ∧ p.2.length = 2 then
          emitTracer s tracerBase .deselect (String.intercalate ", " p.2)
        else if tracerBase ∈ ctx.traceable2d ∧ p.2.length = 2 then
          emitTracer s tracerBase .deselect (String.intercalate ", " p.2)
        else s) s
  | .funcDef name args body, s =>
      -- visit_FunctionDef
      let s := emitL s
        ("function " ++ name ++ "(" ++ String.intercalate ", " args ++ ") \x7b")
      let s := { s with ind := s.ind + 1 }
      let s := { s with funcStack := name :: s.funcStack,
                        scopeStack := args.foldl sadd [] :: s.scopeStack }
      let s := emitL s
        ("logger.println('→ " ++ name ++ "(" ++ String.intercalate ", " args ++ ")');")
      let s := emitL s "Tracer.delay();"
      let s := visitStmts ctx body s
      let s := { s with scopeStack := s.scopeStack.tail,
                        funcStack := s.funcStack.tail }
      let s := { s with ind := s.ind - 1 }
      emitL s "\x7d"
  | .ret none, s =>
      let s := emitL s "logger.println('← return');"
      emitL s "return;"
  | .ret (some v), s =>
      let (vJs, h) := jsExpr s.loopStack v
      let s := addHelpers s h
      let s := emitL s
        ("logger.println('← return ' + JSON.stringify(" ++ vJs ++ "));")
      emitL s ("return " ++ vJs ++ ";")
  | .breakS, s => emitL s "break;"
  | .continueS, s => emitL s "continue;"
  | .passS, s => emitL s "/* pass */"
  | .importS _, s => s
termination_by structural st => st

/-- Statement-list traversal (module body or suite). -/
def visitStmts (ctx : Ctx) : List PStmt → TState → TState
  | [], s => s
  | st :: rest, s => visitStmts ctx rest (visitStmt ctx st s)
termination_by structural l => l

/-- The `for stmt in node.body` loop of `visit_While`: translate each
statement, then (when it assigns the midpoint variable) the extra
select-delay-deselect. -/
def whileBody (ctx : Ctx) (midVar : Option String) :
    List PStmt → TState → TState
  | [], s => s
  | st :: rest, s =>
      let s := visitStmt ctx st s
      let s := midSelect ctx midVar st s
      whileBody ctx midVar rest s
termination_by structural l => l

end

/-! ### Parameter propagation (`_collect_param_bindings`) -/

/-- The per-call binding map `m`: parameter name to the bare-name argument
at that position (`None` when the argument is absent or not a name). -/
def mkParamMap (params : List String) (args : List PExpr) :
    List (String × Option String) :=
  params.enum.map (fun p =>
    (p.2,
     match args.get? p.1 with
     | some (.nameE a) => some a
     | some _ => none
     | none => none))

/-- One level of propagation: bind `g`'s parameters through the enclosing
function's `param_map` (`param_map.get(arg.id) or None`). -/
def mkPropagatedMap (paramMap : List (String × Option String))
    (gparams : List String) (gargs : List PExpr) :
    List (String × Option String) :=
  gparams.enum.map (fun p =>
    (p.2,
     match gargs.get? p.1 with
     | some (.nameE argn) =>
         match paramMap.lookup argn with
         | some (some v) => some v
         | _ => none
     | some _ => none
     | none => none))

/-- `_collect_param_bindings`: map function parameters to the actual
argument names of the first recognized top-level call, then propagate one
level into functions called (by bare-name arguments) from the bodies of the
bound functions. -/
def collectParamBindings (stmts : List PStmt) :
    List (String × List (String × Option String)) :=
  let funcParams : List (String × List String) :=
    stmts.foldl (fun acc st =>
      match st with
      | .funcDef n args _ => assocSet acc n args
      | _ => acc) []
  let funcBodies : List (String × List PStmt) :=
    stmts.foldl (fun acc st =>
      match st with
      | .funcDef n _ b => assocSet acc n b
      | _ => acc) []
  -- top-level calls: the first call to each defined function wins
  let bindings : List (String × List (String × Option String)) :=
    stmts.foldl (fun acc st =>
      match st with
      | .exprStmt (.callE (.nameE fname) args) =>
          match funcParams.lookup fname with
          | some params =>
              if (acc.lookup fname).isSome then acc
              else acc ++ [(fname, mkParamMap params args)]
          | none => acc
      | _ => acc) []
  -- propagate one level (over a snapshot of the top-level entries, against
  -- the growing dict)
  bindings.foldl (fun acc entry =>
    let body := (funcBodies.lookup entry.1).getD []
    body.foldl (fun acc st =>
      match st with
      | .exprStmt (.callE (.nameE gname) gargs) =>
          match funcParams.lookup gname with
          | some gparams =>
              if (acc.lookup gname).isSome then acc
              else acc ++ [(gname, mkPropagatedMap entry.2 gparams gargs)]
          | none => acc
      | _ => acc) acc) bindings

/-! ### Module assembly -/

/-- `InstrumentedTranslator._get_helper_code` (membership checks in the
source's fixed order). -/
def getHelperCode (hs : List Helper) : List String :=
  (if Helper.idx ∈ hs then
    ["function __idx(arr, i) \x7b return i < 0 ? arr.length + i : i; \x7d"]
  else []) ++
  (if Helper.zip ∈ hs then
    ["function __zip(...arrs) \x7b",
     "  const m = Math.min(...arrs.map(a => a.length));",
     "  return Array.from(\x7blength: m\x7d, (_, i) => arrs.map(a => a[i]));",
     "\x7d"]
  else []) ++
  (if Helper.defaultdictH ∈ hs then
    ["function __defaultdict(factory) \x7b",
     "  return new Proxy(\x7b\x7d, \x7b",
     "    get(t, k) \x7b if (!(k in t)) t[k] = factory(); return t[k]; \x7d,",
     "    set(t, k, v) \x7b t[k] = v; return true; \x7d",
     "  \x7d);",
     "\x7d"]
  else []) ++
  (if Helper.counter ∈ hs then
    ["function __counter(seq) \x7b",
     "  const c = \x7b\x7d;",
     "  for (const x of seq) \x7b c[x] = (c[x] || 0) + 1; \x7d",
     "  return c;",
     "\x7d"]
  else []) ++
  (if Helper.heap ∈ hs then
    ["function __heappush(h, x) \x7b",
     "  h.push(x);",
     "  let i = h.length - 1;",
     "  while (i > 0) \x7b",
     "    const p = (i - 1) >> 1;",
     "    if (h[p] <= h[i]) break;",
     "    [h[p], h[i]] = [h[i], h[p]];",
     "    i = p;",
     "  \x7d",
     "\x7d",
     "function __heappop(h) \x7b",
     "  if (h.length === 0) return undefined;",
     "  const top = h[0];",
     "  const x = h.pop();",
     "  if (h.length) \x7b",
     "    h[0] = x;",
     "    let i = 0, n = h.length;",
     "    while (true) \x7b",
     "      let l = 2 * i + 1, r = l + 1, s = i;",
     "      if (l < n && h[l] < h[s]) s = l;",
     "      if (r < n && h[r] < h[s]) s = r;",
     "      if (s === i) break;",
     "      [h[i], h[s]] = [h[s], h[i]];",
     "      i = s;",
     "    \x7d",
     "  \x7d",
     "  return top;",
     "\x7d"]
  else []) ++
  (if Helper.sumH ∈ hs then
    ["const __sum = arr => arr.reduce((a, b) => a + b, 0);"]
  else []) ++
  (if Helper.sortedH ∈ hs then
    ["const __sorted = arr => [...arr].sort((a, b) => a - b);"]
  else []) ++
  (if Helper.reversedH ∈ hs then
    ["const __reversed = arr => [...arr].reverse();"]
  else [])

/-- `visit_Module` on an already-translated state: prepend the polyfills
when any were requested. -/
def renderModule (s : TState) : String :=
  let helpers := getHelperCode s.helpersNeeded
  if ¬ helpers.isEmpty then
    String.intercalate "\n" (helpers ++ [""] ++ s.lines.map (·.text))
  else String.intercalate "\n" (s.lines.map (·.text))

/-- `translate_to_js` up to the final string: build the context from the
summary (`vars_1d`/`vars_2d` as the traceable sets) and the precomputed
parameter bindings, then translate the module body from the initial
state. -/
def translateLines (sum : Summary) (stmts : List PStmt) : TState :=
  let ctx : Ctx :=
    { traceable1d := sum.vars1d
      traceable2d := sum.vars2d
      paramBindings := collectParamBindings stmts }
  visitStmts ctx stmts {}

/-- `translate_to_js`: the final JavaScript text. -/
def translateToJs (sum : Summary) (stmts : List PStmt) : String :=
  renderModule (translateLines sum stmts)

/-! ### Claims about the translator -/

/-- C10: an `Assign` with more than one target (a chained assignment such
as `a = b = expr`) is silently dropped by `visit_Assign`
(`if len(node.targets) != 1: return`): no declaration, no assignment, no
placeholder is emitted, the state is untouched, and the following
statements translate exactly as if the chained assignment were absent. -/
theorem c10_chained_assign_dropped (ctx : Ctx) (t1 t2 : PExpr)
    (ts : List PExpr) (value : PExpr) (s : TState) (rest : List PStmt) :
    visitStmt ctx (.assign (t1 :: t2 :: ts) value) s = s ∧
      visitStmts ctx (.assign (t1 :: t2 :: ts) value :: rest) s =
        visitStmts ctx rest s :=
  ⟨rfl, rfl⟩

/-- C7 counterexample: a statement kind without a specific handler (here
an `import`, whose visitor is the overridden `generic_visit`, i.e. `pass`)
emits NO inline placeholder marker at all — zero lines — contradicting the
claim that every unhandled node kind yields a marker containing a tag of
its kind.  (Subsequent statements do continue normally.) -/
theorem c7_counterexample :
    (visitStmt { } (.importS "math") { }).lines = [] ∧
      (visitStmts { } [.importS "math",
          .assign [.nameE "x"] (.constE (.intC 1))] { }).lines =
        [{ text := "let x = 1;" }] :=
  ⟨rfl, rfl⟩

/-- C7 (amended): translation of an unsupported node never raises and
later statements are unaffected, but the degradation differs by position:
an unhandled STATEMENT kind is silently dropped (no placeholder, no state
change), while an unhandled EXPRESSION kind becomes the fixed inline
marker `/*expr*/`, which does not name the node's kind. -/
theorem c7_amended_unhandled_degradation (ctx : Ctx) (m : String)
    (s : TState) (rest : List PStmt) (ls : List String) (t b o : PExpr) :
    visitStmt ctx (.importS m) s = s ∧
      visitStmts ctx (.importS m :: rest) s = visitStmts ctx rest s ∧
      (jsExpr ls (.ifExpE t b o)).1 = "/*expr*/" :=
  ⟨rfl, rfl, rfl⟩

/-- A while loop whose body assigns the midpoint name `m` (test `0 < 1`
keeps the test-derived visualization empty). -/
def c3While : PStmt :=
  .whileS (.cmpE (.constE (.intC 0)) [(.lt, .constE (.intC 1))])
    [.assign [.nameE "m"] (.constE (.intC 0))]

/-- C3 counterexample: with TWO traceable 1-D bases (`a` and `b`), the
translation of a while body containing `m = 0` emits exactly ONE
select/delay/deselect triple — on the first iterated base `a` only, because
the `for base in self.traceable_1d` loop ends in `break` — not one triple
per traceable base as claimed (nothing is emitted for `b`). -/
theorem c3_counterexample :
    (visitStmt { traceable1d := ["a", "b"] } c3While {}).lines =
      [{ text := "while (((0 < 1))) \x7b" },
       { text := "  let m = 0;" },
       { text := "  aTracer.select(m);", tag := some ⟨"a", .select⟩ },
       { text := "  Tracer.delay();" },
       { text := "  aTracer.deselect(m);", tag := some ⟨"a", .deselect⟩ },
       { text := "\x7d" }] := rfl

/-- C3 (amended): when a while body assigns a midpoint name ("mid",
"middle" or "m"), the translator emits — immediately after that
assignment's translation — one select, one delay and one deselect on a
SINGLE traceable 1-D base (the first the set iteration yields), regardless
of how many traceable bases exist. -/
theorem c3_amended_mid_triple_on_first_base_only (b : String)
    (restT : List String) (pb : List (String × List (String × Option String))) :
    ((visitStmt ⟨b :: restT, [], pb⟩ c3While {}).lines.map (fun l => l.tag)) =
        [none, none, some ⟨b, .select⟩, none, some ⟨b, .deselect⟩, none] ∧
      ((visitStmt ⟨b :: restT, [], pb⟩ c3While {}).lines.map
          (fun l => l.text)).get? 3 = some "  Tracer.delay();" :=
  ⟨rfl, rfl⟩

/-- The bubble-sort swap statement `a[i], a[j] = a[j], a[i]`. -/
def swapAIJ : PStmt :=
  .assign
    [.tupleE [.subE (.nameE "a") (.nameE "i"), .subE (.nameE "a") (.nameE "j")]]
    (.tupleE [.subE (.nameE "a") (.nameE "j"), .subE (.nameE "a") (.nameE "i")])

/-- C5: translating `a[i], a[j] = a[j], a[i]` with `a` traceable 1-D (here:
first in the traceable set; the remaining traceable sets and parameter
bindings are arbitrary, and `i`, `j` translate as loop indices) produces
exactly: the destructuring swap statement, the swap log line, one patch per
swapped index (2 total), one delay, then two depatches — and, per the tags,
no other select/deselect/patch/depatch instrumentation for the statement. -/
theorem c5_swap_roundtrip (restT t2d : List String)
    (pb : List (String × List (String × Option String))) :
    (visitStmt ⟨"a" :: restT, t2d, pb⟩ swapAIJ {}).lines =
      [{ text := "[a[i], a[j]] = [a[j], a[i]];" },
       { text := "logger.println('Swap elements at i and j');" },
       { text := "aTracer.patch(i, a[i]);", tag := some ⟨"a", .patch⟩ },
       { text := "aTracer.patch(j, a[j]);", tag := some ⟨"a", .patch⟩ },
       { text := "Tracer.delay();" },
       { text := "aTracer.depatch(i);", tag := some ⟨"a", .depatch⟩ },
       { text := "aTracer.depatch(j);", tag := some ⟨"a", .depatch⟩ }] := rfl

theorem get_after_append {α : Type} (l1 : List α) (x : α) (l2 : List α) :
    (l1 ++ x :: l2).get? l1.length = some x := by
  induction l1 with
  | nil => rfl
  | cons a t ih => simpa using ih

/-- Counterexample to C8: negative integer literals on the two subscript
paths that bypass `_norm_idx` are emitted verbatim, not as length
expressions — the index of a 1-D subscript-assignment target
(`a[-1] = 0` emits `a[-1] = 0;`, and its tracer calls also carry `-1`),
and the second index of a 2-D access (`m[i][-1]` renders as `m[i][-1]`). -/
theorem c8_counterexample :
    (tHandleSubscriptAssign { traceable1d := ["a"] } {}
        (.subE (.nameE "a") (.constE (.intC (-1)))) (.constE (.intC 0))).lines =
      [{ text := "a[-1] = 0;" },
       { text := "logger.println('Update a[' + -1 + '] = ' + 0);" },
       { text := "aTracer.patch(-1, 0);", tag := some ⟨"a", .patch⟩ },
       { text := "Tracer.delay();" },
       { text := "aTracer.depatch(-1);", tag := some ⟨"a", .depatch⟩ }] ∧
    jsExpr ["i"] (.subE (.subE (.nameE "m") (.nameE "i")) (.constE (.intC (-1)))) =
      ("m[i][-1]", []) := ⟨rfl, rfl⟩

/-- C8 (amended): integer-literal indices never invoke the `__idx`
helper anywhere, but the length-expression rewriting of negative
literals happens only on the paths routed through `_norm_idx` (1-D read
indices and the first index of a 2-D chain).  The paths that render the
index with plain `js_expr` — the target index of a 1-D subscript
assignment and the second index of a 2-D chain — emit a negative literal
verbatim. -/
theorem c8_amended_index_literal_rendering (ls : List String)
    (arrJs : String) (n : Int) (idxJs : String) (ctx : Ctx) (s : TState)
    (b m : String) (v : PExpr) :
    (0 ≤ n → normIdx ls arrJs (.constE (.intC n)) idxJs = (toString n, [])) ∧
    (n < 0 → normIdx ls arrJs (.constE (.intC n)) idxJs =
      ("(" ++ arrJs ++ ".length + " ++ toString n ++ ")", [])) ∧
    (normIdx ls arrJs (.unaryE .usub (.constE (.intC n))) idxJs =
      ("(" ++ arrJs ++ ".length - " ++ toString n ++ ")", [])) ∧
    (jsExpr ls (.constE (.intC n)) = (toString n, [])) ∧
    (jsExpr [] (.subE (.subE (.nameE m) (.nameE "i")) (.constE (.intC n))) =
      (m ++ "[" ++ "i" ++ "][" ++ toString n ++ "]", [])) ∧
    (strContains (pyLower b) "defaultdict" = false →
      (tHandleSubscriptAssign ctx s (.subE (.nameE b) (.constE (.intC n)))
          v).lines.get? s.lines.length =
        some { text := indentOf s.ind ++
                 (b ++ "[" ++ toString n ++ "] = " ++
                   (jsExpr s.loopStack v).1 ++ ";") }) := by
  refine ⟨?_, ?_, rfl, rfl, rfl, ?_⟩
  · intro h
    have hn : ¬ n < 0 := by omega
    simp [normIdx, hn]
  · intro h
    simp [normIdx, h]
  · intro hb
    rw [tHandleSubscriptAssign]
    rcases hj : jsExpr s.loopStack v with ⟨rhs, h0⟩
    simp only [hj]
    have hc : subscriptChain (.subE (.nameE b) (.constE (.intC n))) =
        (some b, [.constE (.intC n)]) := rfl
    simp only [hc]
    have hji : jsExpr (addHelpers s h0).loopStack (.constE (.intC n)) =
        (toString n, []) := rfl
    simp only [hji, hb, Bool.false_eq_true, if_false]
    split
    · rename_i hmem
      simp only [emitL, emitTracer, addHelpers, List.foldl_nil,
        List.append_assoc, List.cons_append, List.singleton_append,
        List.nil_append]
      exact get_after_append _ _ _
    · simp only [emitL, addHelpers, List.foldl_nil, List.append_assoc,
        List.cons_append, List.singleton_append, List.nil_append]
      exact get_after_append _ _ _



theorem c8_witness :
    normIdx [] "arr" (.constE (.intC 3)) "3" = ("3", []) ∧
    normIdx [] "arr" (.constE (.intC (-2))) "-2" = ("(arr.length + -2)", []) ∧
    normIdx [] "arr" (.unaryE .usub (.constE (.intC 1))) "-1" =
      ("(arr.length - 1)", []) ∧
    (tHandleSubscriptAssign {} {} (.subE (.nameE "a") (.constE (.intC (-1))))
        (.constE (.intC 0))).lines.get? 0 = some { text := "a[-1] = 0;" } :=
  ⟨(c8_amended_index_literal_rendering [] "arr" 3 "3" {} {} "a" "m"
      (.constE (.intC 0))).1 (by decide),
   (c8_amended_index_literal_rendering [] "arr" (-2) "-2" {} {} "a" "m"
      (.constE (.intC 0))).2.1 (by decide),
   (c8_amended_index_literal_rendering [] "arr" 1 "-1" {} {} "a" "m"
      (.constE (.intC 0))).2.2.1,
   (c8_amended_index_literal_rendering [] "arr" (-1) "-1" {} {} "a" "m"
      (.constE (.intC 0))).2.2.2.2.2 (by decide)⟩


/-! ### The traceability-gating invariant (C2) -/

/-- A single line respects the gating: if it is a tracer call (tagged), its
base is in a traceable set. -/
def tagOKone (ctx : Ctx) (l : TLine) : Prop :=
  ∀ tg ∈ l.tag, tg.base ∈ ctx.traceable1d ∨ tg.base ∈ ctx.traceable2d

/-- All emitted lines respect the gating. -/
def tagsOK (ctx : Ctx) (lines : List TLine) : Prop :=
  ∀ l ∈ lines, tagOKone ctx l

theorem tagsOK_nil (ctx : Ctx) : tagsOK ctx [] := by
  intro l hl; cases hl

theorem tagsOK_append {ctx : Ctx} {l1 l2 : List TLine} (h1 : tagsOK ctx l1)
    (h2 : tagsOK ctx l2) : tagsOK ctx (l1 ++ l2) := by
  intro l hl
  rcases List.mem_append.mp hl with h | h
  · exact h1 l h
  · exact h2 l h

theorem tagsOK_emitL {ctx : Ctx} {s : TState} (str : String)
    (h : tagsOK ctx s.lines) : tagsOK ctx (emitL s str).lines := by
  refine tagsOK_append h ?_
  intro l hl
  rw [List.mem_singleton] at hl
  subst hl
  intro tg htg
  simp [Option.mem_def] at htg

theorem tagsOK_emitTracer {ctx : Ctx} {s : TState} {base : String}
    (kind : TKind) (args : String)
    (hb : base ∈ ctx.traceable1d ∨ base ∈ ctx.traceable2d)
    (h : tagsOK ctx s.lines) : tagsOK ctx (emitTracer s base kind args).lines := by
  refine tagsOK_append h ?_
  intro l hl
  rw [List.mem_singleton] at hl
  subst hl
  intro tg htg
  simp only [Option.mem_def, Option.some_inj] at htg
  subst htg
  exact hb

theorem tagsOK_foldl {α : Type} {ctx : Ctx} (f : TState → α → TState)
    (hf : ∀ s a, tagsOK ctx s.lines → tagsOK ctx (f s a).lines) :
    ∀ (l : List α) (s : TState), tagsOK ctx s.lines → tagsOK ctx (l.foldl f s).lines := by
  intro l
  induction l with
  | nil => intro s h; exact h
  | cons a rest ih => intro s h; exact ih (f s a) (hf s a h)

theorem tagsOK_emitDeclOrAssign {ctx : Ctx} {s : TState} (name rhs : String)
    (h : tagsOK ctx s.lines) : tagsOK ctx (emitDeclOrAssign s name rhs).lines := by
  unfold emitDeclOrAssign
  split
  · exact tagsOK_emitL _ h
  · unfold declareVar
    split <;> exact tagsOK_emitL _ h

theorem tagsOK_destructuringSwap {ctx : Ctx} {s s' : TState}
    {elts velts : List PExpr}
    (hres : destructuringSwap ctx s elts velts = some s')
    (h : tagsOK ctx s.lines) : tagsOK ctx s'.lines := by
  rw [destructuringSwap] at hres
  revert hres
  split
  · split
    · intro hres
      rw [Option.some_inj] at hres
      subst hres
      split
      · lift_lets
        extract_lets fE sE
        split
        · extract_lets bOne bTwo
          split
          · extract_lets tB
            split
            · rename_i hmem
              extract_lets iOne iTwo
              apply tagsOK_emitTracer _ _ (Or.inl hmem)
              apply tagsOK_emitTracer _ _ (Or.inl hmem)
              apply tagsOK_emitL
              apply tagsOK_emitTracer _ _ (Or.inl hmem)
              apply tagsOK_emitTracer _ _ (Or.inl hmem)
              apply tagsOK_emitL
              exact tagsOK_emitL _ h
            · exact tagsOK_emitL _ h
          · exact tagsOK_emitL _ h
        · exact tagsOK_emitL _ h
      · exact tagsOK_emitL _ h
    · intro hres; cases hres
  · intro hres; cases hres

theorem tagsOK_destructFold {ctx : Ctx} (tmp : String) :
    ∀ (l : List (Nat × String)) (s : TState), tagsOK ctx s.lines →
    tagsOK ctx (l.foldl (fun s p =>
      emitDeclOrAssign s p.2 (tmp ++ "[" ++ toString p.1 ++ "]")) s).lines :=
  tagsOK_foldl _ (fun _ _ hp => tagsOK_emitDeclOrAssign _ _ hp)

theorem tagsOK_destructFallback {ctx : Ctx} (s : TState) (names : List String)
    (value : PExpr) (h : tagsOK ctx s.lines) :
    tagsOK ctx ((match gensym s with
      | (tmp, s) =>
        match jsExpr s.loopStack value with
        | (vJs, hs) =>
          let s := addHelpers s hs
          let s := emitL s ("const " ++ tmp ++ " = " ++ vJs ++ ";")
          names.enum.foldl (fun (s : TState) (p : Nat × String) =>
            emitDeclOrAssign s p.2 (tmp ++ "[" ++ toString p.1 ++ "]")) s).lines) := by
  split
  rename_i tmp s1 heq
  split
  rename_i vJs hs heq2
  apply tagsOK_destructFold
  apply tagsOK_emitL
  have hs1 : s1 = (gensym s).2 := by rw [heq]
  subst hs1
  exact h

theorem tagsOK_zipStep {ctx : Ctx} (s : TState) (p : String × PExpr)
    (h : tagsOK ctx s.lines) :
    tagsOK ctx ((match jsExpr s.loopStack p.2 with
      | (rhs, hs) => emitDeclOrAssign (addHelpers s hs) p.1 rhs).lines) := by
  split
  rename_i rhs hs heq
  exact tagsOK_emitDeclOrAssign _ _ h

theorem tagsOK_tHandleDestructuring {ctx : Ctx} {s : TState}
    (elts : List PExpr) (value : PExpr) (h : tagsOK ctx s.lines) :
    tagsOK ctx (tHandleDestructuring ctx s elts value).lines := by
  cases value
  case tupleE ve =>
    simp only [tHandleDestructuring]
    cases hds : destructuringSwap ctx s elts ve with
    | none =>
        simp only [hds]
        split
        · exact tagsOK_foldl _ (fun s p hp => tagsOK_zipStep s p hp) _ s h
        · exact tagsOK_destructFallback s _ _ h
    | some s' =>
        simp only [hds]
        exact tagsOK_destructuringSwap hds h
  case listE ve =>
    simp only [tHandleDestructuring]
    cases hds : destructuringSwap ctx s elts ve with
    | none =>
        simp only [hds]
        split
        · exact tagsOK_foldl _ (fun s p hp => tagsOK_zipStep s p hp) _ s h
        · exact tagsOK_destructFallback s _ _ h
    | some s' =>
        simp only [hds]
        exact tagsOK_destructuringSwap hds h
  all_goals
    simp only [tHandleDestructuring]
    exact tagsOK_destructFallback s _ _ h

theorem tagsOK_tHandleSubscriptAssign {ctx : Ctx} {s : TState}
    (target value : PExpr) (h : tagsOK ctx s.lines) :
    tagsOK ctx (tHandleSubscriptAssign ctx s target value).lines := by
  rw [tHandleSubscriptAssign]
  split
  rename_i rhs h0 heq
  lift_lets
  extract_lets sA
  have hA : tagsOK ctx sA.lines := h
  clear_value sA
  split
  · exact hA
  · rename_i base idxs heq2
    split
    · rename_i i0 heq3
      split
      rename_i idxJs h1 heq4
      lift_lets
      extract_lets sB sC tracerBase sD sE sF
      have hC : tagsOK ctx sC.lines := by
        unfold sC
        split <;> exact tagsOK_emitL _ hA
      split
      · rename_i hmem
        unfold sF sE sD
        apply tagsOK_emitTracer _ _ (Or.inl hmem)
        apply tagsOK_emitL
        apply tagsOK_emitTracer _ _ (Or.inl hmem)
        exact tagsOK_emitL _ hC
      · exact hC
    · rename_i i0 i1 heq3
      split
      rename_i idx0Js h1 heq4
      split
      rename_i iStr h1' heq5
      split
      rename_i jStr h2 heq6
      lift_lets
      extract_lets sB sC tracerBase sD sE sF
      have hC : tagsOK ctx sC.lines := by
        unfold sC
        exact tagsOK_emitL _ hA
      split
      · rename_i hmem
        unfold sF sE sD
        apply tagsOK_emitTracer _ _ (Or.inr hmem)
        apply tagsOK_emitL
        apply tagsOK_emitTracer _ _ (Or.inr hmem)
        exact tagsOK_emitL _ hC
      · exact hC
    · exact hA

theorem tagsOK_midSelect {ctx : Ctx} {s : TState} (midVar : Option String)
    (st : PStmt) (h : tagsOK ctx s.lines) :
    tagsOK ctx (midSelect ctx midVar st s).lines := by
  unfold midSelect
  split
  · split
    · split
      · exact h
      · rename_i base tail heq
        have hb : base ∈ ctx.traceable1d := by
          rw [heq]; exact List.mem_cons_self _ _
        apply tagsOK_emitTracer _ _ (Or.inl hb)
        apply tagsOK_emitL
        exact tagsOK_emitTracer _ _ (Or.inl hb) h
    · exact h
  · exact h

theorem tagsOK_whileSelStep {ctx : Ctx} (s : TState) (p : String × List String)
    (h : tagsOK ctx s.lines) :
    tagsOK ctx ((let tracerBase := mappedTracerBase ctx s p.1
                 if tracerBase ∈ ctx.traceable1d ∧ p.2.length ≤ 2 then
                   let s := emitTracer s tracerBase .select
                     (String.intercalate ", " p.2)
                   emitL s "Tracer.delay();"
                 else s).lines) := by
  lift_lets
  extract_lets tracerBase
  split
  · rename_i hmem
    exact tagsOK_emitL _ (tagsOK_emitTracer _ _ (Or.inl hmem.1) h)
  · exact h

theorem tagsOK_whileDeselStep {ctx : Ctx} (s : TState) (p : String × List String)
    (h : tagsOK ctx s.lines) :
    tagsOK ctx ((let tracerBase := mappedTracerBase ctx s p.1
                 if tracerBase ∈ ctx.traceable1d ∧ p.2.length ≤ 2 then
                   emitTracer s tracerBase .deselect (String.intercalate ", " p.2)
                 else s).lines) := by
  lift_lets
  extract_lets tracerBase
  split
  · rename_i hmem
    exact tagsOK_emitTracer _ _ (Or.inl hmem.1) h
  · exact h

theorem tagsOK_ifSelStep {ctx : Ctx} (s : TState) (p : String × List String)
    (h : tagsOK ctx s.lines) :
    tagsOK ctx ((let tracerBase := mappedTracerBase ctx s p.1
                 if tracerBase ∈ ctx.traceable1d ∧ p.2.length = 2 then
                   emitTracer s tracerBase .select (String.intercalate ", " p.2)
                 else if tracerBase ∈ ctx.traceable2d ∧ p.2.length = 2 then
                   emitTracer s tracerBase .select (String.intercalate ", " p.2)
                 else s).lines) := by
  lift_lets
  extract_lets tracerBase
  split
  · rename_i hmem
    exact tagsOK_emitTracer _ _ (Or.inl hmem.1) h
  · split
    · rename_i hmem
      exact tagsOK_emitTracer _ _ (Or.inr hmem.1) h
    · exact h

theorem tagsOK_ifDeselStep {ctx : Ctx} (s : TState) (p : String × List String)
    (h : tagsOK ctx s.lines) :
    tagsOK ctx ((let tracerBase := mappedTracerBase ctx s p.1
                 if tracerBase ∈ ctx.traceable1d ∧ p.2.length = 2 then
                   emitTracer s tracerBase .deselect (String.intercalate ", " p.2)
                 else if tracerBase ∈ ctx.traceable2d ∧ p.2.length = 2 then
                   emitTracer s tracerBase .deselect (String.intercalate ", " p.2)
                 else s).lines) := by
  lift_lets
  extract_lets tracerBase
  split
  · rename_i hmem
    exact tagsOK_emitTracer _ _ (Or.inl hmem.1) h
  · split
    · rename_i hmem
      exact tagsOK_emitTracer _ _ (Or.inr hmem.1) h
    · exact h

/-- Gating is preserved by the common tail of `visit_For`'s range branch:
the loop header, the auto-select/deselect around the body, and the
closing brace. -/
theorem tagsOK_forRangeTail {ctx : Ctx} (initStr testStr stepStr loopVar : String)
    (tn : Bool) (body : List PStmt) (s : TState)
    (ih : ∀ s' : TState, tagsOK ctx s'.lines → tagsOK ctx (visitStmts ctx body s').lines)
    (h : tagsOK ctx s.lines) :
    tagsOK ctx ((
      let s := if tn && strContains initStr "let" then declareVar s loopVar else s
      let s := emitL s ("for (" ++ initStr ++ "; " ++ testStr ++ "; " ++ stepStr ++ ") \x7b")
      let s := { s with ind := s.ind + 1 }
      let s := { s with loopStack := loopVar :: s.loopStack }
      let primary := findPrimaryArrayInLoop ctx body
      let s :=
        match primary with
        | some p =>
            let tracerBase := mappedTracerBase ctx s p
            if tracerBase ∈ ctx.traceable1d then
              let s := emitTracer s tracerBase .select loopVar
              emitL s "Tracer.delay();"
            else s
        | none => s
      let s := visitStmts ctx body s
      let s :=
        match primary with
        | some p =>
            let tracerBase := mappedTracerBase ctx s p
            if tracerBase ∈ ctx.traceable1d then
              emitTracer s tracerBase .deselect loopVar
            else s
        | none => s
      let s := { s with loopStack := s.loopStack.tail }
      let s := { s with ind := s.ind - 1 }
      emitL s "\x7d").lines) := by
  lift_lets
  extract_lets sA sB sC sD primary sE sF sG sH sI
  clear_value primary
  have hA : tagsOK ctx sA.lines := by
    unfold sA
    split
    · unfold declareVar
      split <;> exact h
    · exact h
  have hB : tagsOK ctx sB.lines := by
    unfold sB
    exact tagsOK_emitL _ hA
  have hE : tagsOK ctx sE.lines := by
    unfold sE
    cases primary with
    | none => exact hB
    | some p =>
        split
        · rename_i p2 heqp
          lift_lets
          extract_lets tracerBase
          split
          · rename_i hmem
            exact tagsOK_emitL _ (tagsOK_emitTracer _ _ (Or.inl hmem) hB)
          · exact hB
        · rename_i heq
          cases heq
  have hF : tagsOK ctx sF.lines := by
    unfold sF
    exact ih sE hE
  have hG : tagsOK ctx sG.lines := by
    unfold sG
    cases primary with
    | none => exact hF
    | some p =>
        split
        · rename_i p2 heqp
          lift_lets
          extract_lets tracerBase
          split
          · rename_i hmem
            exact tagsOK_emitTracer _ _ (Or.inl hmem) hF
          · exact hF
        · rename_i heq
          cases heq
  exact tagsOK_emitL _ hG

set_option maxHeartbeats 2000000 in
mutual

theorem visitStmt_tagsOK (ctx : Ctx) (st : PStmt) (s : TState)
    (h : tagsOK ctx s.lines) : tagsOK ctx (visitStmt ctx st s).lines := by
  cases st with
  | assign targets value =>
      simp only [visitStmt]
      split
      all_goals
        first
        | exact h
        | (split
           all_goals
             first
             | exact tagsOK_tHandleDestructuring _ _ h
             | exact tagsOK_tHandleSubscriptAssign _ _ h
             | exact h
             | (rcases hj : jsExpr s.loopStack value with ⟨rhs, hs⟩
                simp only [hj]
                exact tagsOK_emitDeclOrAssign _ _ h))
  | augAssign target op value =>
      simp only [visitStmt]
      rcases hj1 : jsExpr s.loopStack target with ⟨targetJs, h1⟩
      rcases hj2 : jsExpr s.loopStack value with ⟨valueJs, h2⟩
      simp only [hj1, hj2]
      split <;> exact tagsOK_emitL _ h
  | exprStmt value =>
      simp only [visitStmt]
      split
      all_goals
        first
        | (rcases hj : jsExpr s.loopStack value with ⟨js, hh⟩
           simp only [hj]
           exact tagsOK_emitL _ h)
        | (rename_i args
           cases args with
           | nil => exact tagsOK_emitL _ h
           | cons a rest =>
               rcases hj2 : jsExpr s.loopStack a with ⟨x, hh⟩
               simp only [hj2]
               exact tagsOK_emitL _ h)
        | (rename_i obj args
           rcases hj : jsExpr s.loopStack obj with ⟨baseJs, h0⟩
           simp only [hj]
           cases args with
           | nil =>
               split
               · rename_i hmem
                 apply tagsOK_emitTracer _ _ (Or.inl hmem)
                 apply tagsOK_emitL
                 apply tagsOK_emitTracer _ _ (Or.inl hmem)
                 apply tagsOK_emitL
                 exact tagsOK_emitL _ h
               · exact tagsOK_emitL _ h
           | cons a rest =>
               rcases hj2 : jsExpr (addHelpers s h0).loopStack a with ⟨x, hh⟩
               simp only [hj2]
               split
               · rename_i hmem
                 apply tagsOK_emitTracer _ _ (Or.inl hmem)
                 apply tagsOK_emitL
                 apply tagsOK_emitTracer _ _ (Or.inl hmem)
                 apply tagsOK_emitL
                 exact tagsOK_emitL _ h
               · exact tagsOK_emitL _ h)
  | forS target iter body =>
      simp only [visitStmt]
      rcases hjt : jsExpr s.loopStack target with ⟨loopVar, h0⟩
      simp only [hjt]
      split
      · rename_i args
        rcases args with _ | ⟨a0, _ | ⟨a1, _ | ⟨a2, rest⟩⟩⟩
        · exact tagsOK_forRangeTail _ _ _ _ _ body _
            (fun sx hx => visitStmts_tagsOK ctx body sx hx) h
        · rcases hja : jsExpr (addHelpers s h0).loopStack a0 with ⟨n, hh⟩
          simp only [hja]
          exact tagsOK_forRangeTail _ _ _ _ _ body _
            (fun sx hx => visitStmts_tagsOK ctx body sx hx) h
        · rcases hja : jsExpr (addHelpers s h0).loopStack a0 with ⟨a, h1⟩
          simp only [hja]
          rcases hjb : jsExpr (addHelpers s h0).loopStack a1 with ⟨b, h2⟩
          simp only [hjb]
          exact tagsOK_forRangeTail _ _ _ _ _ body _
            (fun sx hx => visitStmts_tagsOK ctx body sx hx) h
        · rcases rest with _ | ⟨a3, rs⟩
          · rcases hja : jsExpr (addHelpers s h0).loopStack a0 with ⟨a, h1⟩
            simp only [hja]
            rcases hjb : jsExpr (addHelpers s h0).loopStack a1 with ⟨b, h2⟩
            simp only [hjb]
            rcases hjc : jsExpr (addHelpers s h0).loopStack a2 with ⟨c, h3⟩
            simp only [hjc]
            exact tagsOK_forRangeTail _ _ _ _ _ body _
              (fun sx hx => visitStmts_tagsOK ctx body sx hx) h
          · exact tagsOK_forRangeTail _ _ _ _ _ body _
              (fun sx hx => visitStmts_tagsOK ctx body sx hx) h
      · rcases hji : jsExpr (addHelpers s h0).loopStack iter with ⟨iterableJs, h1⟩
        simp only [hji]
        apply tagsOK_emitL
        apply visitStmts_tagsOK
        split
        · unfold declareVar
          split <;> exact tagsOK_emitL _ h
        · exact tagsOK_emitL _ h
  | whileS test body =>
      simp only [visitStmt]
      rcases hj : jsExpr s.loopStack test with ⟨cond, h0⟩
      simp only [hj]
      rcases hv : extractWhileVizInfo ctx (addHelpers s h0).loopStack test
        with ⟨vizInfo, h1⟩
      simp only [hv]
      apply tagsOK_emitL
      apply tagsOK_foldl _ (fun s p hp => tagsOK_whileDeselStep s p hp)
      apply whileBody_tagsOK
      apply tagsOK_foldl _ (fun s p hp => tagsOK_whileSelStep s p hp)
      exact tagsOK_emitL _ h
  | ifS test body orelse =>
      simp only [visitStmt]
      rcases hj : jsExpr s.loopStack test with ⟨cond, h0⟩
      simp only [hj]
      rcases hc : extractComparisonIndices (addHelpers s h0).loopStack test
        with ⟨selectInfo, h1⟩
      simp only [hc]
      split <;> split
      all_goals
        apply tagsOK_foldl _ (fun s p hp => tagsOK_ifDeselStep s p hp)
        apply tagsOK_emitL
        first
        | (apply visitStmts_tagsOK
           apply tagsOK_emitL
           apply visitStmts_tagsOK
           first
           | (apply tagsOK_emitL
              apply tagsOK_emitL
              exact tagsOK_foldl _ (fun s p hp => tagsOK_ifSelStep s p hp) _ _ h)
           | (apply tagsOK_emitL
              exact tagsOK_foldl _ (fun s p hp => tagsOK_ifSelStep s p hp) _ _ h))
        | (apply visitStmts_tagsOK
           first
           | (apply tagsOK_emitL
              apply tagsOK_emitL
              exact tagsOK_foldl _ (fun s p hp => tagsOK_ifSelStep s p hp) _ _ h)
           | (apply tagsOK_emitL
              exact tagsOK_foldl _ (fun s p hp => tagsOK_ifSelStep s p hp) _ _ h))
  | funcDef name args body =>
      simp only [visitStmt]
      apply tagsOK_emitL
      exact visitStmts_tagsOK ctx body _
        (tagsOK_emitL _ (tagsOK_emitL _ (tagsOK_emitL _ h)))
  | ret v =>
      cases v with
      | none =>
          simp only [visitStmt]
          exact tagsOK_emitL _ (tagsOK_emitL _ h)
      | some e =>
          simp only [visitStmt]
          rcases hj : jsExpr s.loopStack e with ⟨vJs, hh⟩
          simp only [hj]
          exact tagsOK_emitL _ (tagsOK_emitL _ h)
  | breakS =>
      simp only [visitStmt]
      exact tagsOK_emitL _ h
  | continueS =>
      simp only [visitStmt]
      exact tagsOK_emitL _ h
  | passS =>
      simp only [visitStmt]
      exact tagsOK_emitL _ h
  | importS m =>
      simp only [visitStmt]
      exact h
termination_by structural st

theorem visitStmts_tagsOK (ctx : Ctx) (l : List PStmt) (s : TState)
    (h : tagsOK ctx s.lines) : tagsOK ctx (visitStmts ctx l s).lines := by
  cases l with
  | nil => simpa [visitStmts] using h
  | cons st rest =>
      simp only [visitStmts]
      exact visitStmts_tagsOK ctx rest _ (visitStmt_tagsOK ctx st s h)
termination_by structural l

theorem whileBody_tagsOK (ctx : Ctx) (midVar : Option String) (l : List PStmt)
    (s : TState) (h : tagsOK ctx s.lines) :
    tagsOK ctx (whileBody ctx midVar l s).lines := by
  cases l with
  | nil => simpa [whileBody] using h
  | cons st rest =>
      simp only [whileBody]
      exact whileBody_tagsOK ctx midVar rest _
        (tagsOK_midSelect midVar st (visitStmt_tagsOK ctx st s h))
termination_by structural l

end

/-- C2: traceability gating.  Every select, deselect, patch, or depatch
call line the translator emits for a unit translated against a summary
references a tracer base name belonging to the union of the summary's
1-D and 2-D variable sets: every tracer emit site in the source either
iterates `self.traceable_1d` directly or checks membership of the mapped
base in `traceable_1d` / `traceable_2d` before emitting. -/
theorem c2_tracer_gating (sum : Summary) (stmts : List PStmt)
    (l : TLine) (hl : l ∈ (translateLines sum stmts).lines)
    (tg : TracerTag) (htg : l.tag = some tg) :
    tg.base ∈ sum.vars1d ∨ tg.base ∈ sum.vars2d :=
  visitStmts_tagsOK
    { traceable1d := sum.vars1d, traceable2d := sum.vars2d,
      paramBindings := collectParamBindings stmts } stmts {} (tagsOK_nil _)
    l hl tg htg

/-- Concrete instantiation of the gating theorem: translating `a[0] = 1`
against a summary whose 1-D set is `["a"]` emits the tagged
`aTracer.patch(0, 1);` line, whose base the theorem places in the sets. -/
theorem c2_tracer_gating_witness :
    "a" ∈ ({ (default : Summary) with vars1d := ["a"] } : Summary).vars1d ∨
      "a" ∈ ({ (default : Summary) with vars1d := ["a"] } : Summary).vars2d :=
  c2_tracer_gating { (default : Summary) with vars1d := ["a"] }
    [.assign [.subE (.nameE "a") (.constE (.intC 0))] (.constE (.intC 1))]
    { text := "aTracer.patch(0, 1);",
      tag := some { base := "a", kind := .patch } }
    (by decide)
    { base := "a", kind := .patch } rfl

/-! ### C6: parameter-binding collection -/

/-- Counterexample to C6: with two top-level calls `f(a)` then `f(b)`
binding parameter `x` differently, `_collect_param_bindings` does not
yield `None` — the first call wins and `x` is bound to `"a"`. -/
theorem c6_counterexample :
    collectParamBindings
      [.funcDef "f" ["x"] [.passS],
       .exprStmt (.callE (.nameE "f") [.nameE "a"]),
       .exprStmt (.callE (.nameE "f") [.nameE "b"])] =
      [("f", [("x", some "a")])] := rfl

/-- The propagation pass adds nothing when every function known to
`func_params` is already bound in the accumulator. -/
theorem c6_prop_fold_id (fps : List (String × List String))
    (m : List (String × Option String)) (body : List PStmt)
    (acc : List (String × List (String × Option String)))
    (hall : ∀ g, (fps.lookup g).isSome → (acc.lookup g).isSome) :
    body.foldl (fun acc st =>
      match st with
      | .exprStmt (.callE (.nameE gname) gargs) =>
          match fps.lookup gname with
          | some gparams =>
              if (acc.lookup gname).isSome then acc
              else acc ++ [(gname, mkPropagatedMap m gparams gargs)]
          | none => acc
      | _ => acc) acc = acc := by
  induction body with
  | nil => rfl
  | cons st rest ih =>
      simp only [List.foldl]
      have hstep :
          (match st with
           | .exprStmt (.callE (.nameE gname) gargs) =>
               match fps.lookup gname with
               | some gparams =>
                   if (acc.lookup gname).isSome then acc
                   else acc ++ [(gname, mkPropagatedMap m gparams gargs)]
               | none => acc
           | _ => acc) = acc := by
        split
        · rename_i gname gargs
          rcases hl : fps.lookup gname with _ | gparams
          · rfl
          · have : (acc.lookup gname).isSome := hall gname (by rw [hl]; rfl)
            simp [this]
        · rfl
      rw [hstep]
      exact ih


/-- A lookup hit in a singleton association list keyed by `f` is still a
hit after replacing the value. -/
theorem c6_lookup_singleton_mono {α β : Type} (f g : String) (v : α) (w : β)
    (h : (([(f, v)] : List (String × α)).lookup g).isSome) :
    (([(f, w)] : List (String × β)).lookup g).isSome := by
  by_cases hgf : g = f
  · subst hgf
    simp [List.lookup]
  · have hb : (g == f) = false := by
      simp [hgf]
    simp [List.lookup, hb] at h

/-- C6 (amended): parameter bindings are determined by the FIRST
recognized top-level call — any later call, whatever its arguments, is
ignored (`fname not in bindings`); at the winning call a parameter gets
the bare-name argument at its position, `None` when that argument is a
non-name expression or absent; and a function with no recognized
top-level call gets no entry at all. -/
theorem c6_amended_first_call_wins (f x a : String) (args2 : List PExpr)
    (body : List PStmt) :
    collectParamBindings
      [.funcDef f [x] body,
       .exprStmt (.callE (.nameE f) [.nameE a]),
       .exprStmt (.callE (.nameE f) args2)] = [(f, [(x, some a)])] ∧
    collectParamBindings
      [.funcDef f [x] body,
       .exprStmt (.callE (.nameE f) [.constE (.intC 0)])] =
      [(f, [(x, none)])] ∧
    collectParamBindings
      [.funcDef f [x] body,
       .exprStmt (.callE (.nameE f) [])] = [(f, [(x, none)])] ∧
    collectParamBindings [.funcDef f [x] body] = [] := by
  refine ⟨?_, ?_, ?_, ?_⟩
  · rw [collectParamBindings]
    simp [List.lookup, assocSet, mkParamMap]
    exact c6_prop_fold_id [(f, [x])] [(x, some a)] body [(f, [(x, some a)])]
      (fun g hg => c6_lookup_singleton_mono f g [x] [(x, some a)] hg)
  · rw [collectParamBindings]
    simp [List.lookup, assocSet, mkParamMap]
    exact c6_prop_fold_id [(f, [x])] [(x, none)] body [(f, [(x, none)])]
      (fun g hg => c6_lookup_singleton_mono f g [x] [(x, none)] hg)
  · rw [collectParamBindings]
    simp [List.lookup, assocSet, mkParamMap]
    exact c6_prop_fold_id [(f, [x])] [(x, none)] body [(f, [(x, none)])]
      (fun g hg => c6_lookup_singleton_mono f g [x] [(x, none)] hg)
  · rw [collectParamBindings]
    simp [List.lookup, assocSet]

end Av
